import Mathlib

/-!
# Theme manager of the portfolio site (`src/js/theme.js`)

A shallow embedding of the `ThemeManager` class: the palette registry, the
manager's two fields, and the parts of the browser it reads and writes
(`localStorage`, the custom properties of the root element's inline style, the
`class` attribute of `<body>`, the `meta[name="theme-color"]` element and the
events dispatched on `window`).

JavaScript strings are modelled by `String`; every string the code computes
with a regular expression is handled as its list of characters.
-/

namespace ThemeManager

/-! ## The palette registry -/

/-- A palette object literal: its own enumerable properties, in insertion
order (the order `Object.entries` reports them in). -/
abbrev Palette := List (String × String)

/-- The four palette literals of the constructor, `this.themes`. -/
def themes : List (String × Palette) :=
  [ ("default",
      [ ("name", "Default"), ("primary", "#AFDF19"), ("primaryDark", "#9BC516"),
        ("secondary", "#74B9FF"), ("accent", "#FDCB6E"), ("background", "#0B1426"),
        ("surface", "#1E2A3A"), ("surfaceLight", "#2C3E50") ]),
    ("ocean",
      [ ("name", "Ocean"), ("primary", "#00D4AA"), ("primaryDark", "#00B894"),
        ("secondary", "#74B9FF"), ("accent", "#FDCB6E"), ("background", "#0B1426"),
        ("surface", "#1E2A3A"), ("surfaceLight", "#2C3E50") ]),
    ("sunset",
      [ ("name", "Sunset"), ("primary", "#FF6B6B"), ("primaryDark", "#FF5252"),
        ("secondary", "#4ECDC4"), ("accent", "#FFD166"), ("background", "#1A1A2E"),
        ("surface", "#16213E"), ("surfaceLight", "#0F3460") ]),
    ("forest",
      [ ("name", "Forest"), ("primary", "#27AE60"), ("primaryDark", "#229954"),
        ("secondary", "#3498DB"), ("accent", "#F39C12"), ("background", "#0E1A0E"),
        ("surface", "#1A2E1A"), ("surfaceLight", "#2E4A2E") ]) ]

/-- The palette names of the registry: the own keys of `this.themes`. -/
def paletteNames : List String := themes.map Prod.fst

/-- The property names every plain object inherits from `Object.prototype`.
`this.themes` is an object literal, so `this.themes[k]` finds these as well as
the four own keys. -/
def objectPrototypeKeys : List String :=
  [ "constructor", "__defineGetter__", "__defineSetter__", "hasOwnProperty",
    "__lookupGetter__", "__lookupSetter__", "isPrototypeOf", "propertyIsEnumerable",
    "toString", "valueOf", "__proto__", "toLocaleString" ]

/-- What `this.themes[k]` can evaluate to when it is not `undefined`: one of the
palette literals, or a member inherited from `Object.prototype` (a built-in
function, or the prototype object itself for `__proto__`). -/
inductive ThemeValue where
  | palette (p : Palette)
  | inherited (key : String)
  deriving DecidableEq, Repr

/-- The property read `this.themes[key]`; `none` stands for `undefined`. Own
properties are found first, then the prototype chain. Every value found is an
object, hence truthy. -/
def themesGet (key : String) : Option ThemeValue :=
  match themes.lookup key with
  | some p => some (ThemeValue.palette p)
  | none => if key ∈ objectPrototypeKeys then some (ThemeValue.inherited key) else none

/-- The result of `Object.entries(theme)`: the entries of a palette literal; a
built-in function and `Object.prototype` have no own enumerable property. -/
def ThemeValue.entries : ThemeValue → List (String × String)
  | ThemeValue.palette p => p
  | ThemeValue.inherited _ => []

/-- The property read `theme.primary`; `none` stands for `undefined`. -/
def ThemeValue.primary : ThemeValue → Option String
  | ThemeValue.palette p => p.lookup "primary"
  | ThemeValue.inherited _ => none

/-- String conversion of an attribute value, as `setAttribute` performs it. -/
def attrString : Option String → String
  | some v => v
  | none => "undefined"

/-! ## `camelToKebab` -/

/-- The character class `[A-Z]`. -/
def isUpperAZ (c : Char) : Bool := decide ('A'.toNat ≤ c.toNat) && decide (c.toNat ≤ 'Z'.toNat)

/-- The character class `[a-z0-9]`. -/
def isLowerOrDigit (c : Char) : Bool :=
  (decide ('a'.toNat ≤ c.toNat) && decide (c.toNat ≤ 'z'.toNat)) ||
  (decide ('0'.toNat ≤ c.toNat) && decide (c.toNat ≤ '9'.toNat))

/-- The global replacement `/([a-z0-9]|(?=[A-Z]))([A-Z])/g` by `'$1-$2'`, read
left to right. At each position the first alternative is tried first: a
character of `[a-z0-9]` followed by an upper-case letter is a two-character
match; failing that, an upper-case letter alone is a match with an empty first
group. The scan resumes after the match. -/
def insertHyphens : List Char → List Char
  | [] => []
  | [c] => if isUpperAZ c then ['-', c] else [c]
  | c :: d :: rest =>
    if isLowerOrDigit c && isUpperAZ d then c :: '-' :: d :: insertHyphens rest
    else if isUpperAZ c then '-' :: c :: insertHyphens (d :: rest)
    else c :: insertHyphens (d :: rest)

/-- The method `toLowerCase` on ASCII text, which is what the palette keys are:
`A` to `Z` are mapped to `a` to `z`. Characters outside ASCII are left as they
are, where JavaScript also maps those that have a lower-case form. -/
def toLowerCase (l : List Char) : List Char := l.map Char.toLower

/-- The method `camelToKebab(str)`. -/
def camelToKebab (str : String) : String := String.mk (toLowerCase (insertHyphens str.toList))

/-! ## The `class` attribute of `<body>` -/

/-- The character class `\w`. -/
def isWordChar (c : Char) : Bool := c.isAlphanum || c == '_'

/-- Whether a match of `/theme-\w+/` starts at the head of the list. -/
def themeMarkerAt (l : List Char) : Bool :=
  "theme-".toList.isPrefixOf l && (l.drop 6).head?.any isWordChar

/-- The global replacement `/theme-\w+/g` by the empty string, as a scan of
the characters. `skip` counts the characters of the current match that are
still to be deleted unconditionally, and `inWord` says that the scan is inside
the greedy `\w+` of a match. A match found at the head deletes the head and
then six more characters (`heme-` and the first word character). -/
def removeThemeMarkersFrom : Nat → Bool → List Char → List Char
  | _, _, [] => []
  | skip + 1, inWord, _ :: cs => removeThemeMarkersFrom skip inWord cs
  | 0, inWord, c :: cs =>
    if inWord && isWordChar c then removeThemeMarkersFrom 0 true cs
    else if themeMarkerAt (c :: cs) then removeThemeMarkersFrom 6 true cs
    else c :: removeThemeMarkersFrom 0 false cs

/-- The expression `className.replace(/theme-\w+/g, '')`. -/
def removeThemeMarkers (className : String) : String :=
  String.mk (removeThemeMarkersFrom 0 false className.toList)

/-- ASCII whitespace, the separators of a class list. -/
def isAsciiWhitespace (c : Char) : Bool :=
  c == ' ' || c == '\t' || c == '\n' || c == '\x0c' || c == '\r'

/-- Split on ASCII whitespace; `cur` is the token being read. -/
def splitOnWhitespace : List Char → List Char → List String
  | cur, [] => if cur.isEmpty then [] else [String.mk cur]
  | cur, c :: cs =>
    if isAsciiWhitespace c then
      (if cur.isEmpty then splitOnWhitespace [] cs else String.mk cur :: splitOnWhitespace [] cs)
    else splitOnWhitespace (cur ++ [c]) cs

/-- Keep the first occurrence of every token. -/
def orderedSet : List String → List String
  | [] => []
  | t :: ts => t :: (orderedSet ts).filter (fun u => u ≠ t)

/-- The token set of a `class` attribute value: what `classList` holds. -/
def classTokens (className : String) : List String :=
  orderedSet (splitOnWhitespace [] className.toList)

/-- The exceptions `DOMTokenList.add` raises. -/
inductive DOMException where
  | syntaxError
  | invalidCharacterError
  deriving DecidableEq, Repr

/-- The call `classList.add(token)`, returning the new value of the `class`
attribute: the token is appended to the token set unless it is there, and the
attribute is set to the tokens joined by single spaces. An empty token and a
token with whitespace raise. -/
def classListAdd (token : String) (className : String) : Except DOMException String :=
  if token.toList.isEmpty then Except.error DOMException.syntaxError
  else if token.toList.any isAsciiWhitespace then Except.error DOMException.invalidCharacterError
  else
    let set := classTokens className
    Except.ok (" ".intercalate (if token ∈ set then set else set ++ [token]))

/-! ## State -/

/-- A key-value map with string keys: `localStorage`, and the custom
properties of an inline style. -/
abbrev StringMap := String → Option String

/-- The method `getItem`; `none` stands for `null`. -/
def getItem (key : String) (m : StringMap) : Option String := m key

/-- The method `setItem`. -/
def setItem (key value : String) (m : StringMap) : StringMap :=
  fun k => if k = key then some value else m k

/-- The method `style.setProperty(name, value)` for a custom property: an
empty value removes the property. -/
def setProperty (name value : String) (m : StringMap) : StringMap :=
  fun k => if k = name then (if value.toList.isEmpty then none else some value) else m k

/-- An event dispatched on `window`. Listeners run synchronously inside
`dispatchEvent`, so the record also keeps what a listener finds at that
moment: the manager's current theme and the stored theme. -/
structure ThemeEvent where
  type : String
  theme : String
  colors : ThemeValue
  currentThemeAtDispatch : String
  storedAtDispatch : Option String
  deriving DecidableEq, Repr

/-- The part of the browser the manager works on. -/
structure Browser where
  /-- The content of `localStorage`. -/
  storage : StringMap
  /-- The custom properties of `document.documentElement.style`. -/
  style : StringMap
  /-- The value of `document.body.className`. -/
  bodyClass : String
  /-- The `content` attribute of `meta[name="theme-color"]`: `none` when the
  document has no such element, `some none` when it has no such attribute. -/
  metaThemeColor : Option (Option String)
  /-- The events dispatched on `window` so far, oldest first. -/
  events : List ThemeEvent
  /-- The value of `matchMedia('(prefers-color-scheme: dark)').matches`. -/
  systemDark : Bool

/-- A manager together with the browser it runs in. -/
structure State extends Browser where
  currentTheme : String
  prefersDarkMode : Bool

/-- The constructor (the registry is the constant `themes`). -/
def new (b : Browser) : State :=
  { b with currentTheme := "default", prefersDarkMode := b.systemDark }

/-- The method `loadSavedTheme()`. The empty string is falsy. -/
def loadSavedTheme (s : State) : State :=
  match getItem "portfolio_theme" s.storage with
  | none => s
  | some savedTheme =>
    if !savedTheme.toList.isEmpty && (themesGet savedTheme).isSome then
      { s with currentTheme := savedTheme }
    else s

/-- The loop over `Object.entries(theme)` in `applyTheme`: one `setProperty`
per entry whose key is not `name`. -/
def applyCustomProperties (entries : List (String × String)) (style : StringMap) : StringMap :=
  entries.foldl
    (fun st kv => if kv.1 ≠ "name" then setProperty ("--" ++ camelToKebab kv.1) kv.2 st else st)
    style

/-- The names of the style variables that loop writes. -/
def customPropertyNames (entries : List (String × String)) : List String :=
  (entries.filter (fun kv => kv.1 ≠ "name")).map (fun kv => "--" ++ camelToKebab kv.1)

/-- The method `applyTheme(themeName)`, statement by statement. The only
statement that can raise is `classList.add`; the result is then the exception
alone, without the writes made before it. -/
def applyTheme (themeName : String) (s : State) : Except DOMException State :=
  match themesGet themeName with
  | none => Except.ok s
  | some theme =>
    match classListAdd ("theme-" ++ themeName) (removeThemeMarkers s.bodyClass) with
    | Except.error e => Except.error e
    | Except.ok cls =>
      let s1 : State :=
        { s with
          style := applyCustomProperties theme.entries s.style
          bodyClass := cls
          metaThemeColor := s.metaThemeColor.map (fun _ => some (attrString theme.primary))
          currentTheme := themeName
          storage := setItem "portfolio_theme" themeName s.storage }
      Except.ok
        { s1 with
          events := s1.events ++
            [{ type := "themeChanged", theme := themeName, colors := theme,
               currentThemeAtDispatch := s1.currentTheme,
               storedAtDispatch := getItem "portfolio_theme" s1.storage }] }

/-- The listener `watchSystemTheme()` registers for the `change` event of the
dark-mode media query, run with `e.matches = isDark`. -/
def systemThemeChanged (isDark : Bool) (s : State) : Except DOMException State :=
  let s1 : State := { s with prefersDarkMode := isDark }
  match getItem "portfolio_theme" s1.storage with
  | some hasManualTheme =>
    if hasManualTheme.toList.isEmpty then applyTheme (if isDark then "default" else "ocean") s1
    else Except.ok s1
  | none => applyTheme (if isDark then "default" else "ocean") s1

/-- An empty browser: nothing stored, no style, no class, no meta element. -/
def emptyBrowser : Browser :=
  { storage := fun _ => none, style := fun _ => none, bodyClass := "",
    metaThemeColor := none, events := [], systemDark := false }

/-! ## Definitions used to state the results -/

/-- The state `applyTheme` builds once the lookup gave `theme` and
`classList.add` gave `cls`. -/
def appliedState (themeName : String) (theme : ThemeValue) (cls : String) (s : State) : State :=
  { s with
    style := applyCustomProperties theme.entries s.style
    bodyClass := cls
    metaThemeColor := s.metaThemeColor.map (fun _ => some (attrString theme.primary))
    currentTheme := themeName
    storage := setItem "portfolio_theme" themeName s.storage
    events := s.events ++
      [{ type := "themeChanged", theme := themeName, colors := theme,
         currentThemeAtDispatch := themeName,
         storedAtDispatch := some themeName }] }

/-- The class attribute `applyTheme` leaves on `<body>`. -/
def markedClass (themeName : String) (className : String) : String :=
  let set := classTokens (removeThemeMarkers className)
  " ".intercalate (if "theme-" ++ themeName ∈ set then set else set ++ ["theme-" ++ themeName])

/-- A browser whose store holds `value` under `portfolio_theme` and whose
`<body>` has the class attribute `className`; everything else is empty. -/
def browserWith (value : Option String) (className : String) : Browser :=
  { emptyBrowser with
    storage := fun k => if k = "portfolio_theme" then value else none
    bodyClass := className }

/-- The states a manager constructed over the browser `b` can reach by calls
of `loadSavedTheme`, calls of `applyTheme` with any string, and changes of the
system dark-mode preference. -/
inductive Reachable (b : Browser) : State → Prop where
  | construct : Reachable b (new b)
  | load {s : State} : Reachable b s → Reachable b (loadSavedTheme s)
  | apply {s s1 : State} (themeName : String) :
      Reachable b s → applyTheme themeName s = Except.ok s1 → Reachable b s1
  | systemChange {s s1 : State} (isDark : Bool) :
      Reachable b s → systemThemeChanged isDark s = Except.ok s1 → Reachable b s1

/-! ## The other methods of the manager -/

/-- The method `init()`: `loadSavedTheme()`, then `applyTheme(this.currentTheme)`.
The two calls that follow, `setupThemeToggle()` and `watchSystemTheme()`, build
the selector button and register the listener `systemThemeChanged`; they
neither read nor write any part of `State`. -/
def init (s : State) : Except DOMException State :=
  let s1 := loadSavedTheme s
  applyTheme s1.currentTheme s1

/-- The method `getThemeColors(themeName = this.currentTheme)`: the value of
`this.themes[themeName] || this.themes.default`, and the state, which the
method does not write. The argument `none` is an omitted argument; the result
`none` stands for `undefined`. -/
def getThemeColors (themeName : Option String) (s : State) : Option ThemeValue × State :=
  let key := match themeName with
    | some n => n
    | none => s.currentTheme
  match themesGet key with
  | some theme => (some theme, s)
  | none => (themesGet "default", s)

/-- The method `getCurrentTheme()`, with the state, which it does not write. -/
def getCurrentTheme (s : State) : String × State := (s.currentTheme, s)

/-- The synchronous part of `animateThemeChange()`: the class
`theme-transitioning` is added to `<body>`. -/
def animateThemeChange (s : State) : Except DOMException State :=
  match classListAdd "theme-transitioning" s.bodyClass with
  | Except.error e => Except.error e
  | Except.ok cls => Except.ok { s with bodyClass := cls }

/-- The timer callback of `animateThemeChange()`, 300 ms later:
`classList.remove('theme-transitioning')`. -/
def animateThemeChangeTimeout (s : State) : State :=
  { s with
    bodyClass := " ".intercalate ((classTokens s.bodyClass).filter (fun t => t ≠ "theme-transitioning")) }

/-- The reference definition of `camelToKebab`, after the specification:
every upper-case letter `A` to `Z` is replaced by `-` followed by its
lower-case letter, and every other character is kept. -/
def camelToKebabReference (str : String) : String :=
  String.mk (str.toList.flatMap (fun c => if isUpperAZ c then ['-', Char.toLower c] else [c]))

/-- The number of upper-case letters `A` to `Z` of a string. -/
def upperCount (str : String) : Nat := (str.toList.filter isUpperAZ).length

/-- ASCII text. -/
def isAsciiText (str : String) : Prop := ∀ c ∈ str.toList, c.toNat < 128

/-- Whether `/theme-\w+/` has a match somewhere in the characters. -/
def hasThemeMarker : List Char → Bool
  | [] => false
  | c :: cs => themeMarkerAt (c :: cs) || hasThemeMarker cs

/-- Whether the characters are, as a whole, one match of `/theme-\w+/`:
`theme-` followed by one or more word characters and nothing else. -/
def isThemeClass (t : List Char) : Bool :=
  themeMarkerAt t && (t.drop 6).all isWordChar

/-- A class attribute in which `/theme-\w+/` matches whole tokens only: every
token is one match, or has no match in it. -/
def markersAreTokens (className : String) : Prop :=
  ∀ t ∈ splitOnWhitespace [] className.toList,
    hasThemeMarker t.toList = false ∨ isThemeClass t.toList = true

/-- Where a token ends: at the end of the text or before a whitespace character. -/
def TokenEnd (rest : List Char) : Prop :=
  rest = [] ∨ ∃ w r, rest = w :: r ∧ isAsciiWhitespace w = true

/-- A class token as `classList` holds them: not empty and free of whitespace. -/
def ValidToken (t : String) : Prop :=
  t.toList ≠ [] ∧ ∀ c ∈ t.toList, isAsciiWhitespace c = false

end ThemeManager

/-!
# Navigation (`src/js/navigation.js`)

The mobile menu of `NavigationManager`: the field `isMenuOpen`, the window
width, and the elements the menu methods write.
-/

namespace NavigationManager

/-- The value the code writes to `style.transitionDelay` of a link: the
template `index * 0.1` seconds, kept as the index, or the literal `0s`. -/
inductive TransitionDelay where
  | unset
  | indexTenths (index : Nat)
  | zeroSeconds
  deriving DecidableEq, Repr

/-- The inline style of a `.nav-link` inside the header navigation. -/
structure LinkStyle where
  transitionDelay : TransitionDelay
  transform : String
  opacity : String
  deriving DecidableEq, Repr

/-- The element `#mobileToggle`: whether it has the class `active`, its
`innerHTML` and its `style.display`. -/
structure ToggleButton where
  active : Bool
  innerHTML : String
  display : String
  deriving DecidableEq, Repr

/-- The element `.header__nav`: whether it has the class `active`, and the
styles of its `.nav-link` descendants, in document order. -/
structure HeaderNav where
  active : Bool
  links : List LinkStyle
  deriving DecidableEq, Repr

/-- A navigation manager and what it works on. An element that the document
does not have is `none` (the code guards every access with `?.` or `if`). -/
structure State where
  /-- The value of `window.innerWidth`. -/
  innerWidth : Nat
  isMenuOpen : Bool
  mobileToggle : Option ToggleButton
  headerNav : Option HeaderNav
  /-- Whether the overlay has the class `active`; `none` while `this.overlay` is `null`. -/
  overlay : Option Bool
  /-- The value of `document.body.style.overflow`. -/
  bodyOverflow : String
  deriving DecidableEq, Repr

/-- The method `getDeviceType()`. -/
def getDeviceType (s : State) : String :=
  if s.innerWidth ≥ 1025 then "desktop"
  else if s.innerWidth ≥ 769 then "tablet"
  else "mobile"

/-- The method `closeMobileMenu()`. -/
def closeMobileMenu (s : State) : State :=
  { s with
    headerNav := s.headerNav.map (fun nav =>
      { active := false,
        links := nav.links.map (fun l => { l with transitionDelay := TransitionDelay.zeroSeconds }) })
    overlay := s.overlay.map (fun _ => false)
    mobileToggle := s.mobileToggle.map (fun t =>
      { t with active := false, innerHTML := "<i class=\"fas fa-bars\"></i>" })
    bodyOverflow := ""
    isMenuOpen := false }

/-- The styles `openMobileMenu()` gives the links, by position. -/
def openLinks : Nat → List LinkStyle → List LinkStyle
  | _, [] => []
  | index, _ :: ls =>
    { transitionDelay := TransitionDelay.indexTenths index, transform := "translateX(0)",
      opacity := "1" } :: openLinks (index + 1) ls

/-- The method `openMobileMenu()`. -/
def openMobileMenu (s : State) : State :=
  if getDeviceType s ≠ "mobile" then s
  else
    { s with
      headerNav := s.headerNav.map (fun nav => { active := true, links := openLinks 0 nav.links })
      overlay := s.overlay.map (fun _ => true)
      mobileToggle := s.mobileToggle.map (fun t =>
        { t with active := true, innerHTML := "<i class=\"fas fa-times\"></i>" })
      bodyOverflow := "hidden"
      isMenuOpen := true }

/-- The method `toggleMobileMenu()`. -/
def toggleMobileMenu (s : State) : State :=
  if getDeviceType s ≠ "mobile" then s
  else if s.isMenuOpen then closeMobileMenu s
  else openMobileMenu s

/-- The method `updateNavigation()`. -/
def updateNavigation (s : State) : State :=
  if getDeviceType s = "desktop" ∨ getDeviceType s = "tablet" then
    { s with
      headerNav := s.headerNav.map (fun nav => { nav with active := false })
      overlay := s.overlay.map (fun _ => false)
      bodyOverflow := ""
      mobileToggle := s.mobileToggle.map (fun t => { t with display := "none" })
      isMenuOpen := false }
  else if getDeviceType s = "mobile" then
    { s with mobileToggle := s.mobileToggle.map (fun t => { t with display := "flex" }) }
  else s

/-- A page with a toggle button, a header navigation of two links and an
overlay, at the given width, menu closed. -/
def samplePage (width : Nat) : State :=
  { innerWidth := width, isMenuOpen := false,
    mobileToggle := some { active := false, innerHTML := "<i class=\"fas fa-bars\"></i>", display := "" },
    headerNav := some
      { active := false,
        links := [ { transitionDelay := TransitionDelay.unset, transform := "", opacity := "" },
                   { transitionDelay := TransitionDelay.unset, transform := "", opacity := "" } ] },
    overlay := some false, bodyOverflow := "" }

end NavigationManager

/-!
# Exceptions and promises
-/

namespace JS

/-- The exceptions the modelled code can raise. -/
inductive JSError where
  | referenceError (name : String)
  | typeError
  | syntaxError
  | dom (e : ThemeManager.DOMException)
  /-- The `SecurityError` that reading `window.localStorage` raises when the
  browser denies the page access to storage. -/
  | securityError
  /-- The `QuotaExceededError` that `setItem` raises when the store does not
  take the new value. -/
  | quotaExceededError
  deriving DecidableEq, Repr

/-- How a call ends: normally, or by raising; either way with the state it
has reached. -/
inductive Completion (σ : Type) where
  | normal (state : σ)
  | raised (error : JSError) (state : σ)
  deriving Repr

/-- The state a call ends in. -/
def Completion.state {σ : Type} : Completion σ → σ
  | Completion.normal s => s
  | Completion.raised _ s => s

/-- How a promise settles. -/
inductive PromiseOutcome where
  | fulfilled
  | rejected (reason : JSError)
  deriving DecidableEq, Repr

end JS

/-!
# The theme operations with the failure modes of storage

`loadSavedTheme` and `applyTheme` above take the calls of `localStorage` to
succeed, as the specification does. The two definitions below follow the same
statements with the exceptions those calls can raise; no statement of
`theme.js` catches an exception.
-/

namespace ThemeManager

/-- How the browser answers the calls of `localStorage`. -/
inductive StorageAccess where
  /-- Every call succeeds. -/
  | available
  /-- Reading succeeds; `setItem` raises `QuotaExceededError`: the store is at
  its quota, or is one that takes no data at all. -/
  | full
  /-- Storage is denied to the page: every use of `localStorage` raises
  `SecurityError`. -/
  | denied
  deriving DecidableEq, Repr

/-- The call `localStorage.getItem(key)`. -/
def getItemE (access : StorageAccess) (key : String) (m : StringMap) :
    Except JS.JSError (Option String) :=
  match access with
  | StorageAccess.denied => Except.error JS.JSError.securityError
  | _ => Except.ok (getItem key m)

/-- The call `localStorage.setItem(key, value)`. -/
def setItemE (access : StorageAccess) (key value : String) (m : StringMap) :
    Except JS.JSError StringMap :=
  match access with
  | StorageAccess.available => Except.ok (setItem key value m)
  | StorageAccess.full => Except.error JS.JSError.quotaExceededError
  | StorageAccess.denied => Except.error JS.JSError.securityError

/-- The method `loadSavedTheme()`: how it ends, and in which state. -/
def loadSavedThemeE (access : StorageAccess) (s : State) : JS.Completion State :=
  match getItemE access "portfolio_theme" s.storage with
  | Except.error e => JS.Completion.raised e s
  | Except.ok none => JS.Completion.normal s
  | Except.ok (some savedTheme) =>
    if !savedTheme.toList.isEmpty && (themesGet savedTheme).isSome then
      JS.Completion.normal { s with currentTheme := savedTheme }
    else JS.Completion.normal s

/-- The method `applyTheme(themeName)`, statement by statement: how it ends,
and in which state. A statement that raises ends the method there, with the
writes of the statements before it done. -/
def applyThemeE (access : StorageAccess) (themeName : String) (s : State) :
    JS.Completion State :=
  match themesGet themeName with
  | none => JS.Completion.normal s
  | some theme =>
    let s1 : State :=
      { s with
        style := applyCustomProperties theme.entries s.style
        bodyClass := removeThemeMarkers s.bodyClass }
    match classListAdd ("theme-" ++ themeName) s1.bodyClass with
    | Except.error e => JS.Completion.raised (JS.JSError.dom e) s1
    | Except.ok cls =>
      let s2 : State :=
        { s1 with
          bodyClass := cls
          metaThemeColor := s1.metaThemeColor.map (fun _ => some (attrString theme.primary))
          currentTheme := themeName }
      match setItemE access "portfolio_theme" themeName s2.storage with
      | Except.error e => JS.Completion.raised e s2
      | Except.ok stored =>
        let s3 : State := { s2 with storage := stored }
        JS.Completion.normal
          { s3 with
            events := s3.events ++
              [{ type := "themeChanged", theme := themeName, colors := theme,
                 currentThemeAtDispatch := s3.currentTheme,
                 storedAtDispatch := getItem "portfolio_theme" s3.storage }] }

end ThemeManager

/-!
# Animations (`src/js/animations.js`)
-/

namespace AnimationManager

/-- An animation manager and what `init()` works on. The inline styles that
`init()` writes on the animated elements are not part of the state. -/
structure State where
  isReducedMotion : Bool
  /-- The length of `this.observers`. -/
  observers : Nat
  /-- The number of elements under observation. -/
  observed : Nat
  /-- The number of event listeners the manager has registered. -/
  listeners : Nat
  /-- The value of `document.body.className`. -/
  bodyClass : String
  /-- The number of elements the selector list of `initializeScrollAnimations` matches. -/
  animatedElements : Nat
  /-- The number of elements the selector list of `initializeHoverEffects` matches. -/
  interactiveElements : Nat
  /-- The number of `.parallax-element` elements. -/
  parallaxElements : Nat
  deriving DecidableEq, Repr

/-- The constructor, on a document with the given class of `<body>` and
element counts; `reduce` is `matchMedia('(prefers-reduced-motion: reduce)').matches`. -/
def new (reduce : Bool) (bodyClass : String) (animated interactive parallax : Nat) : State :=
  { isReducedMotion := reduce, observers := 0, observed := 0, listeners := 0,
    bodyClass := bodyClass, animatedElements := animated, interactiveElements := interactive,
    parallaxElements := parallax }

/-- The method `initializeScrollAnimations()`: one observer, observing every
animated element, pushed on `this.observers`. -/
def initializeScrollAnimations (s : State) : State :=
  { s with observed := s.observed + s.animatedElements, observers := s.observers + 1 }

/-- The method `initializeHoverEffects()`: `addHoverEffect` registers four
listeners on every interactive element. -/
def initializeHoverEffects (s : State) : State :=
  { s with listeners := s.listeners + 4 * s.interactiveElements }

/-- The method `initializeLoadingAnimations()`: inline styles only. -/
def initializeLoadingAnimations (s : State) : State := s

/-- The method `initializeParallaxEffects()`: one scroll listener when there
is a parallax element. -/
def initializeParallaxEffects (s : State) : State :=
  if s.parallaxElements = 0 then s else { s with listeners := s.listeners + 1 }

/-- The method `init()`. In the reduced-motion branch the statement after
`classList.add` is the call `resolve()`; no binding named `resolve` is in
scope in the method (the only one is the parameter of the executor in
`initializeAnimations`), so evaluating the name raises a `ReferenceError`. -/
def init (s : State) : JS.Completion State :=
  if s.isReducedMotion then
    match ThemeManager.classListAdd "reduced-motion" s.bodyClass with
    | Except.error e => JS.Completion.raised (JS.JSError.dom e) s
    | Except.ok cls =>
      JS.Completion.raised (JS.JSError.referenceError "resolve") { s with bodyClass := cls }
  else
    JS.Completion.normal
      (initializeParallaxEffects (initializeLoadingAnimations
        (initializeHoverEffects (initializeScrollAnimations s))))

/-- The function `initializeAnimations()`: how the promise it returns settles,
and the state of the manager. An exception raised inside the executor before
`resolve()` rejects the promise. -/
def initializeAnimations (reduce : Bool) (bodyClass : String)
    (animated interactive parallax : Nat) : JS.PromiseOutcome × State :=
  match init (new reduce bodyClass animated interactive parallax) with
  | JS.Completion.normal s => (JS.PromiseOutcome.fulfilled, s)
  | JS.Completion.raised e s => (JS.PromiseOutcome.rejected e, s)

end AnimationManager

/-!
# The application (`src/js/main.js`)
-/

namespace PortfolioApp

/-- The fields of the application that `start()` writes, with the class of `<body>`. -/
structure App where
  isLoaded : Bool
  bodyClass : String
  deriving DecidableEq, Repr

/-- How `Promise.all` over the four initializers settles: rejected with the
first rejection in order, fulfilled when all are. -/
def promiseAll : List JS.PromiseOutcome → JS.PromiseOutcome
  | [] => JS.PromiseOutcome.fulfilled
  | JS.PromiseOutcome.fulfilled :: rest => promiseAll rest
  | JS.PromiseOutcome.rejected e :: _ => JS.PromiseOutcome.rejected e

/-- The method `start()`, up to the call of `initializePageSpecific()`: when
the awaited `Promise.all` rejects, control goes to the `catch` block, which
only logs; otherwise `isLoaded` is set and `<body>` gets the class `loaded`. -/
def start (theme navigation animations utils : JS.PromiseOutcome) (app : App) : App :=
  match promiseAll [theme, navigation, animations, utils] with
  | JS.PromiseOutcome.rejected _ => app
  | JS.PromiseOutcome.fulfilled =>
    match ThemeManager.classListAdd "loaded" app.bodyClass with
    | Except.error _ => { app with isLoaded := true }
    | Except.ok cls => { isLoaded := true, bodyClass := cls }

/-- The method `String.prototype.includes`, on characters. -/
def includes : List Char → List Char → Bool
  | [], sub => sub.isEmpty
  | c :: cs, sub => sub.isPrefixOf (c :: cs) || includes cs sub

/-- The method `getCurrentPage()`, as a function of `window.location.pathname`. -/
def getCurrentPage (path : String) : String :=
  if includes path.toList "Home".toList || decide (path = "/") then "home"
  else if includes path.toList "Projects".toList then "projects"
  else if includes path.toList "About-me".toList then "skills"
  else if includes path.toList "contact-me".toList then "contact"
  else if includes path.toList "index.html".toList && !includes path.toList "pages".toList then "intro"
  else "home"

/-- The five pages the build is given in `vite.config.js`, as request paths. -/
def entryPages : List String :=
  [ "/index.html", "/pages/Home/index.html", "/pages/Projects/index.html",
    "/pages/About-me/index.html", "/pages/contact-me/index.html" ]

/-! ## Stored JSON -/

/-- What `JSON.parse(text)` gives, as the code that expects an array of
records `α` sees it: an exception on text that is not JSON, a falsy value
(`null`, `false`, `0`, the empty string), an array, whose elements the
embedding takes to be records `α`, or a truthy value that is not an array. -/
inductive Parsed (α : Type) where
  | syntaxError
  | falsy
  | array (items : List α)
  | notArray
  deriving Repr

/-- The functions `JSON.parse` and `JSON.stringify` of the platform, for
arrays of records `α`. -/
structure Json (α : Type) where
  parse : String → Parsed α
  stringify : List α → String

/-- The expression `JSON.parse(localStorage.getItem(key))`: the argument `null`
is converted to the text `null`, which parses to `null`. -/
def parseStored {α : Type} (json : Json α) : Option String → Parsed α
  | none => Parsed.falsy
  | some text => json.parse text

/-- The expression `x || fallback` for a string or `null`: `null` and the
empty string are falsy. -/
def orElse : Option String → String → String
  | none, fallback => fallback
  | some v, fallback => if v.toList.isEmpty then fallback else v

/-! ## Projects -/

/-- A project record. -/
structure Project where
  title : String
  description : String
  technologies : List String
  isLive : Bool
  isFeatured : Bool
  status : String
  link : Option String
  github : Option String
  category : String
  image : Option String
  deriving DecidableEq, Repr

/-- The literal `defaultProjects` of `loadProjects()`. -/
def defaultProjects : List Project :=
  [ { title := "ChartNodes",
      description := "Minecraft servers hosting solution with real-time analytics and management dashboard.",
      technologies := ["HTML", "SCSS", "Python", "Flask"],
      isLive := true, isFeatured := true, status := "published",
      link := some "https://github.com/Emozz001", github := some "https://github.com/Emozz001",
      category := "web", image := none },
    { title := "PROTECTX Bot",
      description := "Discord anti-crash bot with advanced protection features and custom commands.",
      technologies := ["React", "Express", "Discord.js", "Node.js"],
      isLive := false, isFeatured := true, status := "published",
      link := some "https://github.com/Emozz001", github := some "https://github.com/Emozz001",
      category := "bot", image := none },
    { title := "Kahoot Answers",
      description := "Get answers to your kahoot quiz in real-time with this powerful educational tool.",
      technologies := ["CSS", "Express", "Node.js"],
      isLive := true, isFeatured := false, status := "published",
      link := some "https://github.com/Emozz001", github := some "https://github.com/Emozz001",
      category := "tool", image := none } ]

/-- The element `createProjectCard(project, index)` builds: its markup is a
function of the project, and its animation delay of the index. -/
structure Card where
  project : Project
  index : Nat
  deriving DecidableEq, Repr

/-- The content of the element `#projects-grid`. -/
inductive GridContent where
  /-- The markup the page was served with. -/
  | served
  /-- The block with the text `No published projects found.` -/
  | placeholder
  /-- The cards appended, in order. -/
  | cards (cs : List Card)
  deriving DecidableEq, Repr

/-- The cards `projects.forEach` appends, the first with index `index`. -/
def createCards : Nat → List Project → List Card
  | _, [] => []
  | index, p :: ps => { project := p, index := index } :: createCards (index + 1) ps

/-- The method `renderProjects(projects, container)`: the new content of the container. -/
def renderProjects (projects : List Project) : GridContent :=
  if projects.length = 0 then GridContent.placeholder
  else GridContent.cards (createCards 0 projects)

/-- The filter `project => project.status === 'published'`. -/
def published (projects : List Project) : List Project :=
  projects.filter (fun project => project.status = "published")

/-- The method `loadProjects()`: the content of `#projects-grid` afterwards;
`grid = none` is a page without that element. A stored text that is not JSON
raises in `JSON.parse`, and a stored truthy value that is not an array has no
method `filter`. -/
def loadProjects (json : Json Project) (storage : ThemeManager.StringMap)
    (grid : Option GridContent) : JS.Completion (Option GridContent) :=
  match grid with
  | none => JS.Completion.normal none
  | some g =>
    match parseStored json (ThemeManager.getItem "portfolioProjects" storage) with
    | Parsed.syntaxError => JS.Completion.raised JS.JSError.syntaxError (some g)
    | Parsed.notArray => JS.Completion.raised JS.JSError.typeError (some g)
    | Parsed.falsy => JS.Completion.normal (some (renderProjects (published defaultProjects)))
    | Parsed.array projects => JS.Completion.normal (some (renderProjects (published projects)))

/-! ## Contact submissions -/

/-- The record `contactData` of the submit handler: four form fields
(`FormData.get` gives `null` for a missing field), the ISO time and the
millisecond clock as text. -/
structure Contact where
  name : Option String
  email : Option String
  subject : Option String
  message : Option String
  timestamp : String
  id : String
  deriving DecidableEq, Repr

/-- The record `eventData` of `trackEvent`. -/
structure EventRecord where
  name : String
  data : List (String × Option String)
  timestamp : String
  page : String
  deriving DecidableEq, Repr

/-- The expression `list.slice(-n)`: the last `n` elements. -/
def sliceLast {α : Type} (n : Nat) (l : List α) : List α := l.drop (l.length - n)

/-- The method `trackEvent(eventName, data)`: its effect on the store. Every
exception is caught inside the method. -/
def trackEvent (json : Json EventRecord) (record : EventRecord)
    (storage : ThemeManager.StringMap) : ThemeManager.StringMap :=
  match json.parse (orElse (ThemeManager.getItem "portfolio_events" storage) "[]") with
  | Parsed.array events =>
    ThemeManager.setItem "portfolio_events" (json.stringify (sliceLast 50 (events ++ [record])))
      storage
  | _ => storage

/-- The `try` block of the submit handler, from the store's side: the stored
contacts are read, the new record is put in front, the first 50 are stored,
and the submission is tracked. `raised` means that the `catch` block ran and
the error message was shown. -/
def submitContact (json : Json Contact) (events : Json EventRecord) (contact : Contact)
    (eventTime : String) (path : String) (storage : ThemeManager.StringMap) :
    JS.Completion ThemeManager.StringMap :=
  let store := fun (contacts : List Contact) =>
    JS.Completion.normal
      (trackEvent events
        { name := "contact_form_submit", data := [("subject", contact.subject)],
          timestamp := eventTime, page := getCurrentPage path }
        (ThemeManager.setItem "portfolio_contacts" (json.stringify ((contact :: contacts).take 50))
          storage))
  match parseStored json (ThemeManager.getItem "portfolio_contacts" storage) with
  | Parsed.syntaxError => JS.Completion.raised JS.JSError.syntaxError storage
  | Parsed.notArray => JS.Completion.raised JS.JSError.typeError storage
  | Parsed.falsy => store []
  | Parsed.array contacts => store contacts

/-! ## Visits and page views -/

/-- What the browser supplies to the tracking methods. -/
structure Env where
  /-- The value of `Date.now()`. -/
  now : Nat
  /-- The value of `new Date().toISOString()`. -/
  isoTime : String
  /-- The value of `navigator.userAgent`. -/
  userAgent : String
  /-- The value of `document.referrer`. -/
  referrer : String
  deriving DecidableEq, Repr

/-- The record `visitData` of `trackVisitor`. -/
structure Visit where
  id : String
  page : String
  timestamp : String
  userAgent : String
  referrer : String
  deriving DecidableEq, Repr

/-- The expression `localStorage.getItem('visitorId') || 'visitor_' + Date.now()`. -/
def visitorIdFor (env : Env) (storage : ThemeManager.StringMap) : String :=
  orElse (ThemeManager.getItem "visitorId" storage) ("visitor_" ++ toString env.now)

/-- The record `visitData`. -/
def visitData (env : Env) (page : String) (storage : ThemeManager.StringMap) : Visit :=
  { id := visitorIdFor env storage, page := page, timestamp := env.isoTime,
    userAgent := env.userAgent,
    referrer := if env.referrer.toList.isEmpty then "direct" else env.referrer }

/-- The method `trackVisitor(page)`: its effect on the store. Every exception
(text that is not JSON, a parsed value without a method `push`) is caught
inside the method, before anything is stored. -/
def trackVisitor (json : Json Visit) (env : Env) (page : String)
    (storage : ThemeManager.StringMap) : ThemeManager.StringMap :=
  match json.parse (orElse (ThemeManager.getItem "visitors" storage) "[]") with
  | Parsed.array visitors =>
    ThemeManager.setItem "visitorId" (visitorIdFor env storage)
      (ThemeManager.setItem "visitors"
        (json.stringify (sliceLast 100 (visitors ++ [visitData env page storage]))) storage)
  | _ => storage

/-- A parser that accepts no text; it stands in where nothing is parsed. -/
def noJson (α : Type) : Json α :=
  { parse := fun _ => Parsed.syntaxError, stringify := fun _ => "" }

/-- A parser that knows the text `[]`, and writes the number of records. -/
def emptyJson (α : Type) : Json α :=
  { parse := fun text => if text = "[]" then Parsed.array [] else Parsed.syntaxError,
    stringify := fun l => toString l.length }

/-- A stand-in for the examples: the text `stored` parses to `items`, the text
`[]` to the empty array, and a list is written as its length. -/
def fixedJson {α : Type} (items : List α) : Json α :=
  { parse := fun text =>
      if text = "stored" then Parsed.array items
      else if text = "[]" then Parsed.array [] else Parsed.syntaxError,
    stringify := fun l => toString l.length }

/-- An empty store. -/
def emptyStorage : ThemeManager.StringMap := fun _ => none

/-- A store with one entry. -/
def storageWith (key value : String) : ThemeManager.StringMap :=
  ThemeManager.setItem key value emptyStorage

/-- Browser values for the examples. -/
def sampleEnv : Env :=
  { now := 1704067200000, isoTime := "2024-01-01T00:00:00.000Z", userAgent := "Mozilla/5.0",
    referrer := "" }

/-- A contact record for the examples. -/
def sampleContact : Contact :=
  { name := some "Ada", email := some "ada@example.org", subject := some "Hello",
    message := some "Hi", timestamp := "2024-01-01T00:00:00.000Z", id := "1704067200000" }

/-- A visit record for the examples. -/
def sampleVisit : Visit :=
  { id := "visitor_42", page := "home", timestamp := "2023-12-31T00:00:00.000Z",
    userAgent := "Mozilla/5.0", referrer := "direct" }

/-- A store for the examples: the text `stored` under `visitors`, and the id
`visitor_42` under `visitorId`. -/
def sampleStorage : ThemeManager.StringMap :=
  ThemeManager.setItem "visitorId" "visitor_42" (storageWith "visitors" "stored")

/-- A project record for the examples, with the given title and status. -/
def sampleProject (title status : String) : Project :=
  { title := title, description := "", technologies := ["Lean"], isLive := false,
    isFeatured := false, status := status, link := none, github := none, category := "web",
    image := none }

/-- A project list for the examples: a draft between two published projects,
followed by an archived one. -/
def sampleProjects : List Project :=
  [sampleProject "First" "published", sampleProject "Second" "draft",
    sampleProject "Third" "published", sampleProject "Fourth" "archived"]

/-- A project list for the examples with no published project. -/
def draftProjects : List Project :=
  [sampleProject "Second" "draft", sampleProject "Fourth" "archived"]

/-! ## Counters -/

/-- The result of `parseInt(text)`, for the integers the embedding follows:
those of magnitude at most `2^53`, which a number holds exactly. `beyond` is an
integer of larger magnitude; what the code does with it is not followed. -/
inductive ParsedInt where
  | nan
  | int (z : Int)
  | beyond
  deriving DecidableEq, Repr

/-- The white space and line terminators that `parseInt` skips at the start. -/
def isStrWhiteSpace (c : Char) : Bool :=
  c.toNat ∈ [0x9, 0xA, 0xB, 0xC, 0xD, 0x20, 0xA0, 0x1680, 0x2028, 0x2029, 0x202F, 0x205F,
    0x3000, 0xFEFF] || (decide (0x2000 ≤ c.toNat) && decide (c.toNat ≤ 0x200A))

/-- The value of a character as a digit, in any radix up to 36. -/
def digitValue (c : Char) : Option Nat :=
  if 48 ≤ c.toNat ∧ c.toNat ≤ 57 then some (c.toNat - 48)
  else if 97 ≤ c.toNat ∧ c.toNat ≤ 122 then some (c.toNat - 87)
  else if 65 ≤ c.toNat ∧ c.toNat ≤ 90 then some (c.toNat - 55)
  else none

/-- The values of the longest prefix of digits of the radix. -/
def radixDigits (radix : Nat) : List Char → List Nat
  | [] => []
  | c :: cs =>
    match digitValue c with
    | some d => if d < radix then d :: radixDigits radix cs else []
    | none => []

/-- The integer a list of digit values denotes. -/
def digitsValue (radix : Nat) (digits : List Nat) : Nat :=
  digits.foldl (fun acc d => acc * radix + d) 0

/-- The function `parseInt(text)` with no radix argument: leading white space
is skipped, then a sign, then `0x` or `0X` selects radix 16, then the longest
prefix of digits is read; without a digit the result is `NaN`. -/
def parseInt (text : String) : ParsedInt :=
  let s0 := text.toList.dropWhile isStrWhiteSpace
  let negative := decide (s0.head? = some '-')
  let s1 := if s0.head? = some '-' ∨ s0.head? = some '+' then s0.tail else s0
  let hex := "0x".toList.isPrefixOf s1 || "0X".toList.isPrefixOf s1
  let radix := if hex then 16 else 10
  let digits := radixDigits radix (if hex then s1.drop 2 else s1)
  if digits.isEmpty then ParsedInt.nan
  else if digitsValue radix digits > 2 ^ 53 then ParsedInt.beyond
  else ParsedInt.int (if negative then -(digitsValue radix digits : Int) else digitsValue radix digits)

/-- The expression `parseInt(localStorage.getItem(key)) || 0`: `null` is read
as the text `null`, which has no digit; `NaN` and zero are falsy. `none` is a
stored integer beyond `2^53`. -/
def storedCounter (entry : Option String) : Option Int :=
  match entry with
  | none => some 0
  | some text =>
    match parseInt text with
    | ParsedInt.nan => some 0
    | ParsedInt.int z => some z
    | ParsedInt.beyond => none

/-- The statement `x++` on an integer of magnitude at most `2^53`: the sum is
exact up to `2^53`; `2^53 + 1` lies halfway between the two numbers `2^53` and
`2^53 + 2` and is rounded to the one with the even significand, `2^53`. -/
def increment (z : Int) : Int := if z < 2 ^ 53 then z + 1 else z

/-- The key `portfolio_${page}_views`. -/
def pageKey (page : String) : String := "portfolio_" ++ page ++ "_views"

/-- The method `trackPageView(page)`: its effect on the store; `none` when a
stored counter is beyond `2^53`. A number is stored as its decimal text. -/
def trackPageView (json : Json Visit) (env : Env) (page : String)
    (storage : ThemeManager.StringMap) : Option ThemeManager.StringMap :=
  match storedCounter (ThemeManager.getItem "portfolio_page_views" storage) with
  | none => none
  | some pageViews =>
    let st1 := ThemeManager.setItem "portfolio_page_views" (toString (increment pageViews)) storage
    match storedCounter (ThemeManager.getItem (pageKey page) st1) with
    | none => none
    | some specificViews =>
      some (trackVisitor json env page
        (ThemeManager.setItem (pageKey page) (toString (increment specificViews)) st1))

/-- A stored counter that is a decimal string of the non-negative integer `n`:
one or more digits `0` to `9`; an absent entry counts as 0. -/
def DecimalEntry (entry : Option String) (n : Nat) : Prop :=
  (entry = none ∧ n = 0) ∨
  ∃ text, entry = some text ∧ text.toList ≠ [] ∧
    (∀ c ∈ text.toList, 48 ≤ c.toNat ∧ c.toNat ≤ 57) ∧
    digitsValue 10 (text.toList.map (fun c => c.toNat - 48)) = n

end PortfolioApp

namespace ThemeManager

/-! ## Basic facts -/

theorem mem_paletteNames {n : String} :
    n ∈ paletteNames ↔ n = "default" ∨ n = "ocean" ∨ n = "sunset" ∨ n = "forest" := by
  simp [paletteNames, themes]

theorem classListAdd_palette {n : String} (hn : n ∈ paletteNames) (c : String) :
    classListAdd ("theme-" ++ n) (removeThemeMarkers c) = Except.ok (markedClass n c) := by
  rcases mem_paletteNames.mp hn with rfl | rfl | rfl | rfl <;> rfl

theorem themesGet_paletteNames {n : String} (hn : n ∈ paletteNames) :
    ∃ p, themes.lookup n = some p ∧ themesGet n = some (ThemeValue.palette p) := by
  rcases mem_paletteNames.mp hn with rfl | rfl | rfl | rfl <;> exact ⟨_, rfl, rfl⟩

theorem applyTheme_eq {n : String} {theme : ThemeValue} {cls : String} (s : State)
    (hget : themesGet n = some theme)
    (hcls : classListAdd ("theme-" ++ n) (removeThemeMarkers s.bodyClass) = Except.ok cls) :
    applyTheme n s = Except.ok (appliedState n theme cls s) := by
  simp [applyTheme, hget, hcls, appliedState, getItem, setItem]

theorem applyTheme_palette {n : String} (hn : n ∈ paletteNames) (s : State) :
    ∃ p, themes.lookup n = some p ∧
      applyTheme n s = Except.ok (appliedState n (ThemeValue.palette p) (markedClass n s.bodyClass) s) := by
  obtain ⟨p, hp, hget⟩ := themesGet_paletteNames hn
  exact ⟨p, hp, applyTheme_eq s hget (classListAdd_palette hn _)⟩

theorem camelToKebab_keys :
    camelToKebab "name" = "name" ∧ camelToKebab "primary" = "primary" ∧
    camelToKebab "primaryDark" = "primary-dark" ∧ camelToKebab "secondary" = "secondary" ∧
    camelToKebab "accent" = "accent" ∧ camelToKebab "background" = "background" ∧
    camelToKebab "surface" = "surface" ∧ camelToKebab "surfaceLight" = "surface-light" := by
  decide

/-! ## Round trip, defaults and the persisted entry -/

/-- C1: for every palette name `n` and every prior state, `applyTheme(n)`
succeeds, and `loadSavedTheme` afterwards leaves the current theme name equal
to `n`, both on the same manager and on a manager newly constructed over the
browser state that `applyTheme` left. -/
theorem applyTheme_then_loadSavedTheme (n : String) (hn : n ∈ paletteNames) (s : State) :
    ∃ s1, applyTheme n s = Except.ok s1 ∧
      (loadSavedTheme s1).currentTheme = n ∧
      (loadSavedTheme (new s1.toBrowser)).currentTheme = n := by
  obtain ⟨p, -, happ⟩ := applyTheme_palette hn s
  obtain ⟨q, -, hget⟩ := themesGet_paletteNames hn
  have hne : ¬ n.data = [] := by
    rcases mem_paletteNames.mp hn with rfl | rfl | rfl | rfl <;> decide
  refine ⟨_, happ, ?_, ?_⟩ <;>
    simp [loadSavedTheme, appliedState, new, getItem, setItem, hget, hne]

theorem applyTheme_then_loadSavedTheme_witness :
    "sunset" ∈ paletteNames ∧
    ∃ s1, applyTheme "sunset" (new emptyBrowser) = Except.ok s1 ∧
      (loadSavedTheme s1).currentTheme = "sunset" ∧
      (loadSavedTheme (new s1.toBrowser)).currentTheme = "sunset" :=
  ⟨by decide, applyTheme_then_loadSavedTheme "sunset" (by decide) (new emptyBrowser)⟩

/-- C6: on a newly constructed manager, when the store has no entry under
`portfolio_theme`, `loadSavedTheme` leaves the current theme name `default`. -/
theorem loadSavedTheme_absent (b : Browser) (h : getItem "portfolio_theme" b.storage = none) :
    (loadSavedTheme (new b)).currentTheme = "default" := by
  simp [loadSavedTheme, new, h]

theorem loadSavedTheme_absent_witness :
    getItem "portfolio_theme" emptyBrowser.storage = none ∧
    (loadSavedTheme (new emptyBrowser)).currentTheme = "default" :=
  ⟨rfl, loadSavedTheme_absent emptyBrowser rfl⟩

/-- C8: for every palette name `n`, after `applyTheme(n)` the store maps
`portfolio_theme` to `n`, the current theme name is `n`, and every other key of
the store has the value it had before the call. -/
theorem applyTheme_storage (n : String) (hn : n ∈ paletteNames) (s : State) :
    ∃ s1, applyTheme n s = Except.ok s1 ∧
      getItem "portfolio_theme" s1.storage = some n ∧
      s1.currentTheme = n ∧
      ∀ k, k ≠ "portfolio_theme" → getItem k s1.storage = getItem k s.storage := by
  obtain ⟨p, -, happ⟩ := applyTheme_palette hn s
  refine ⟨_, happ, ?_, rfl, ?_⟩
  · simp [appliedState, getItem, setItem]
  · intro k hk
    simp [appliedState, getItem, setItem, hk]

theorem applyTheme_storage_witness :
    "forest" ∈ paletteNames ∧
    ∃ s1, applyTheme "forest" (new emptyBrowser) = Except.ok s1 ∧
      getItem "portfolio_theme" s1.storage = some "forest" ∧
      s1.currentTheme = "forest" ∧
      ∀ k, k ≠ "portfolio_theme" →
        getItem k s1.storage = getItem k (new emptyBrowser).storage :=
  ⟨by decide, applyTheme_storage "forest" (by decide) (new emptyBrowser)⟩

/-! ## Style variables -/

/-- C7: for every palette name `n` and every entry `(k, v)` of its palette
with `k` other than `name`, after `applyTheme(n)` the style variable
`--` followed by `camelToKebab(k)` holds `v`; every style variable that is not
one of those keeps the value it had, and the variable the key `name` would
give is not one of those, so nothing is written for `name`; and
`applyTheme("ocean")` sets `--primary` to `#00D4AA`. -/
theorem applyTheme_style (n : String) (hn : n ∈ paletteNames) (s : State) :
    ∃ p s1, themes.lookup n = some p ∧ applyTheme n s = Except.ok s1 ∧
      (∀ k v, (k, v) ∈ p → k ≠ "name" → s1.style ("--" ++ camelToKebab k) = some v) ∧
      (∀ x, x ∉ customPropertyNames p → s1.style x = s.style x) ∧
      "--" ++ camelToKebab "name" ∉ customPropertyNames p ∧
      (n = "ocean" → s1.style "--primary" = some "#00D4AA") := by
  obtain ⟨p, hp, happ⟩ := applyTheme_palette hn s
  obtain ⟨h0, h1, h2, h3, h4, h5, h6, h7⟩ := camelToKebab_keys
  refine ⟨p, _, hp, happ, ?_, ?_, ?_, ?_⟩
  · rcases mem_paletteNames.mp hn with rfl | rfl | rfl | rfl <;>
    · obtain rfl : _ = p := Option.some.inj hp
      intro k v hkv hk
      simp only [List.mem_cons, Prod.mk.injEq, List.mem_singleton, List.not_mem_nil, or_false] at hkv
      rcases hkv with ⟨rfl, rfl⟩ | ⟨rfl, rfl⟩ | ⟨rfl, rfl⟩ | ⟨rfl, rfl⟩ | ⟨rfl, rfl⟩ | ⟨rfl, rfl⟩ |
        ⟨rfl, rfl⟩ | ⟨rfl, rfl⟩ <;>
      first
        | exact absurd rfl hk
        | simp [appliedState, applyCustomProperties, ThemeValue.entries, setProperty,
            h0, h1, h2, h3, h4, h5, h6, h7]
  · rcases mem_paletteNames.mp hn with rfl | rfl | rfl | rfl <;>
    · obtain rfl : _ = p := Option.some.inj hp
      intro x hx
      simp [customPropertyNames, h0, h1, h2, h3, h4, h5, h6, h7] at hx
      simp [appliedState, applyCustomProperties, ThemeValue.entries, setProperty,
        h0, h1, h2, h3, h4, h5, h6, h7, hx]
  · rcases mem_paletteNames.mp hn with rfl | rfl | rfl | rfl <;>
    · obtain rfl : _ = p := Option.some.inj hp
      simp [customPropertyNames, h0, h1, h2, h3, h4, h5, h6, h7]
  · rintro rfl
    obtain rfl : _ = p := Option.some.inj hp
    simp [appliedState, applyCustomProperties, ThemeValue.entries, setProperty,
      h0, h1, h2, h3, h4, h5, h6, h7]

theorem applyTheme_style_witness :
    "ocean" ∈ paletteNames ∧
    ∃ p s1, themes.lookup "ocean" = some p ∧ applyTheme "ocean" (new emptyBrowser) = Except.ok s1 ∧
      (∀ k v, (k, v) ∈ p → k ≠ "name" → s1.style ("--" ++ camelToKebab k) = some v) ∧
      (∀ x, x ∉ customPropertyNames p → s1.style x = (new emptyBrowser).style x) ∧
      "--" ++ camelToKebab "name" ∉ customPropertyNames p ∧
      ("ocean" = "ocean" → s1.style "--primary" = some "#00D4AA") :=
  ⟨by decide, applyTheme_style "ocean" (by decide) (new emptyBrowser)⟩

/-! ## Names found on the prototype chain

`this.themes[name]` is truthy for the twelve names of `objectPrototypeKeys`,
which are not palette names: the guards of `applyTheme` and `loadSavedTheme`
let them through. -/

theorem applyTheme_undefined {n : String} (s : State) (h : themesGet n = none) :
    applyTheme n s = Except.ok s := by
  simp [applyTheme, h]

theorem applyTheme_inherited {n : String} (hn : n ∈ objectPrototypeKeys) (s : State) :
    applyTheme n s =
      Except.ok (appliedState n (ThemeValue.inherited n) (markedClass n s.bodyClass) s) := by
  simp only [objectPrototypeKeys, List.mem_cons, List.mem_singleton, List.not_mem_nil,
    or_false] at hn
  rcases hn with rfl | rfl | rfl | rfl | rfl | rfl | rfl | rfl | rfl | rfl | rfl | rfl <;>
    exact applyTheme_eq s rfl rfl

/-- C2 (the code at `"constructor"`): `"constructor"` is not a palette name,
yet `applyTheme("constructor")` is not a no-op. From every state it makes
`constructor` the current theme name, stores it under `portfolio_theme`,
dispatches a `themeChanged` event, gives a `theme-color` meta element the
content `undefined` and marks `<body>`; on a newly constructed manager in an
empty browser the class attribute becomes `theme-constructor`. -/
theorem applyTheme_constructor (s : State) :
    "constructor" ∉ paletteNames ∧
    (∃ s1, applyTheme "constructor" s = Except.ok s1 ∧
      s1.currentTheme = "constructor" ∧
      getItem "portfolio_theme" s1.storage = some "constructor" ∧
      s1.events.length = s.events.length + 1 ∧
      s1.bodyClass = markedClass "constructor" s.bodyClass ∧
      s1.metaThemeColor = s.metaThemeColor.map (fun _ => some "undefined")) ∧
    (∃ s1, applyTheme "constructor" (new emptyBrowser) = Except.ok s1 ∧
      (new emptyBrowser).currentTheme = "default" ∧ s1.currentTheme = "constructor" ∧
      (new emptyBrowser).bodyClass = "" ∧ s1.bodyClass = "theme-constructor" ∧
      getItem "portfolio_theme" (new emptyBrowser).storage = none ∧
      getItem "portfolio_theme" s1.storage = some "constructor" ∧
      (new emptyBrowser).events = [] ∧ s1.events.length = 1) := by
  refine ⟨by decide, ⟨_, applyTheme_inherited (by decide) s, rfl, ?_, ?_, rfl, rfl⟩,
    ⟨_, rfl, rfl, rfl, rfl, rfl, rfl, rfl, rfl, rfl⟩⟩
  · simp [appliedState, getItem, setItem]
  · simp [appliedState]

/-- C5 (the code at the stored value `"toString"`): `"toString"` is not a
palette name, yet on a newly constructed manager whose store holds it under
`portfolio_theme`, `loadSavedTheme` makes it the current theme name instead of
keeping `default`. -/
theorem loadSavedTheme_toString (b : Browser)
    (h : getItem "portfolio_theme" b.storage = some "toString") :
    "toString" ∉ paletteNames ∧ (new b).currentTheme = "default" ∧
      (loadSavedTheme (new b)).currentTheme = "toString" := by
  refine ⟨by decide, rfl, ?_⟩
  have hget : themesGet "toString" = some (ThemeValue.inherited "toString") := rfl
  simp [loadSavedTheme, new, h, hget]

theorem loadSavedTheme_toString_witness :
    getItem "portfolio_theme" (browserWith (some "toString") "").storage = some "toString" ∧
    "toString" ∉ paletteNames ∧ (new (browserWith (some "toString") "")).currentTheme = "default" ∧
      (loadSavedTheme (new (browserWith (some "toString") ""))).currentTheme = "toString" :=
  ⟨rfl, loadSavedTheme_toString (browserWith (some "toString") "") rfl⟩

/-- C3 (the invariant fails): over a browser whose store holds `__proto__`
under `portfolio_theme`, the state after the constructor and `loadSavedTheme`
is reachable and its current theme name is `__proto__`, which is not a palette
name; and from every reachable state `applyTheme("valueOf")` reaches a state
whose current theme name is `valueOf`. -/
theorem reachable_not_palette :
    (∃ s, Reachable (browserWith (some "__proto__") "") s ∧
      s.currentTheme = "__proto__" ∧ s.currentTheme ∉ paletteNames) ∧
    (∀ b s, Reachable b s →
      ∃ s1, Reachable b s1 ∧ s1.currentTheme = "valueOf" ∧ s1.currentTheme ∉ paletteNames) := by
  constructor
  · exact ⟨_, Reachable.load Reachable.construct, rfl, by decide⟩
  · intro b s hs
    refine ⟨_, Reachable.apply "valueOf" hs (applyTheme_inherited (by decide) s), rfl, ?_⟩
    show "valueOf" ∉ paletteNames
    decide

/-! ## The change notification -/

theorem applyTheme_events_palette {n : String} (hn : n ∈ paletteNames) (s : State) :
    ∃ p s1, themes.lookup n = some p ∧ applyTheme n s = Except.ok s1 ∧
      s1.events = s.events ++
        [{ type := "themeChanged", theme := n, colors := ThemeValue.palette p,
           currentThemeAtDispatch := n, storedAtDispatch := some n }] := by
  obtain ⟨p, hp, happ⟩ := applyTheme_palette hn s
  exact ⟨p, _, hp, happ, rfl⟩

theorem applyTheme_events_undefined {n : String} (s : State) (h : themesGet n = none) :
    ∃ s1, applyTheme n s = Except.ok s1 ∧ s1.events = s.events :=
  ⟨s, applyTheme_undefined s h, rfl⟩

/-- C10 (the code at `"hasOwnProperty"`): `"hasOwnProperty"` is not a palette
name, yet `applyTheme("hasOwnProperty")` dispatches one `themeChanged` event
from every state; its detail carries the inherited function as `colors`. -/
theorem applyTheme_hasOwnProperty_event (s : State) :
    "hasOwnProperty" ∉ paletteNames ∧
    ∃ s1, applyTheme "hasOwnProperty" s = Except.ok s1 ∧
      s1.events = s.events ++
        [{ type := "themeChanged", theme := "hasOwnProperty",
           colors := ThemeValue.inherited "hasOwnProperty",
           currentThemeAtDispatch := "hasOwnProperty",
           storedAtDispatch := some "hasOwnProperty" }] :=
  ⟨by decide, _, applyTheme_inherited (by decide) s, rfl⟩

/-! ## Theme marker classes

`className.replace(/theme-\w+/g, '')` works on the attribute string, not on
its tokens: deleting a match from the middle of a token joins what is left of
it, and the result can be a theme marker. -/

/-- C9 (the code at the class `themetheme-x-ocean`): after
`applyTheme("default")` the class list of `<body>` holds `theme-ocean` next to
`theme-default`. -/
theorem applyTheme_spliced_marker :
    classTokens "themetheme-x-ocean" = ["themetheme-x-ocean"] ∧
    removeThemeMarkers "themetheme-x-ocean" = "theme-ocean" ∧
    ∃ s1, applyTheme "default" (new (browserWith none "themetheme-x-ocean")) = Except.ok s1 ∧
      s1.bodyClass = "theme-ocean theme-default" ∧
      classTokens s1.bodyClass = ["theme-ocean", "theme-default"] :=
  ⟨by decide, by decide, _, rfl, rfl, by decide⟩

theorem setItem_setItem (k v : String) (m : StringMap) :
    setItem k v (setItem k v m) = setItem k v m := by
  funext x
  simp only [setItem]
  split_ifs <;> rfl

theorem applyCustomProperties_twice {n : String} {p : Palette} (hn : n ∈ paletteNames)
    (hp : themes.lookup n = some p) (st : StringMap) :
    applyCustomProperties p (applyCustomProperties p st) = applyCustomProperties p st := by
  obtain ⟨h0, h1, h2, h3, h4, h5, h6, h7⟩ := camelToKebab_keys
  rcases mem_paletteNames.mp hn with rfl | rfl | rfl | rfl <;>
  · obtain rfl : _ = p := Option.some.inj hp
    funext x
    simp only [applyCustomProperties, List.foldl, h0, h1, h2, h3, h4, h5, h6, h7]
    simp [setProperty]
    split_ifs <;> rfl

/-- The part of idempotence that holds for every prior state: a second
`applyTheme(n)` changes neither the current theme name, nor the store, nor the
style variables, nor the `theme-color` meta element. -/
theorem applyTheme_twice_state {n : String} (hn : n ∈ paletteNames) (s : State) :
    ∃ s1 s2, applyTheme n s = Except.ok s1 ∧ applyTheme n s1 = Except.ok s2 ∧
      s2.currentTheme = s1.currentTheme ∧ s2.storage = s1.storage ∧ s2.style = s1.style ∧
      s2.metaThemeColor = s1.metaThemeColor := by
  obtain ⟨p, hp, happ⟩ := applyTheme_palette hn s
  obtain ⟨q, hq, happ2⟩ := applyTheme_palette hn
    (appliedState n (ThemeValue.palette p) (markedClass n s.bodyClass) s)
  obtain rfl : p = q := Option.some.inj (hp.symm.trans hq)
  refine ⟨_, _, happ, happ2, rfl, ?_, ?_, ?_⟩
  · exact setItem_setItem _ _ _
  · exact applyCustomProperties_twice hn hp _
  · simp only [appliedState]
    cases s.metaThemeColor <;> rfl

/-- C4 (the code at the class list `hero themetheme-a-forest`): one call of
`applyTheme("sunset")` leaves the classes `hero`, `theme-forest` and
`theme-sunset`; a second call leaves `hero` and `theme-sunset` only. -/
theorem applyTheme_twice_classes :
    ∃ s1 s2, applyTheme "sunset" (new (browserWith none "hero themetheme-a-forest")) = Except.ok s1 ∧
      applyTheme "sunset" s1 = Except.ok s2 ∧
      classTokens s1.bodyClass = ["hero", "theme-forest", "theme-sunset"] ∧
      classTokens s2.bodyClass = ["hero", "theme-sunset"] ∧
      "theme-forest" ∈ classTokens s1.bodyClass ∧ "theme-forest" ∉ classTokens s2.bodyClass :=
  ⟨_, _, rfl, rfl, by decide, by decide, by decide, by decide⟩

/-! ## The system-preference listener -/

/-- C11: when a dark-mode change event with value `d` arrives and the store has
no entry under `portfolio_theme`, the listener succeeds and afterwards the
current theme name and the stored value are `default` if `d` is true and
`ocean` if `d` is false; the flag `prefersDarkMode` is `d`. -/
theorem systemThemeChanged_absent (d : Bool) (s : State)
    (h : getItem "portfolio_theme" s.storage = none) :
    ∃ s1, systemThemeChanged d s = Except.ok s1 ∧
      s1.currentTheme = (if d then "default" else "ocean") ∧
      getItem "portfolio_theme" s1.storage = some (if d then "default" else "ocean") ∧
      s1.prefersDarkMode = d := by
  have hn : (if d then "default" else "ocean") ∈ paletteNames := by
    cases d <;> decide
  obtain ⟨p, -, happ⟩ := applyTheme_palette hn { s with prefersDarkMode := d }
  have hs : getItem "portfolio_theme" ({ s with prefersDarkMode := d } : State).storage = none := h
  have hrun : systemThemeChanged d s =
      applyTheme (if d then "default" else "ocean") { s with prefersDarkMode := d } := by
    simp only [systemThemeChanged, hs]
  rw [hrun, happ]
  exact ⟨_, rfl, rfl, by simp [appliedState, getItem, setItem], rfl⟩

theorem systemThemeChanged_absent_witness :
    getItem "portfolio_theme" (new emptyBrowser).storage = none ∧
    ∃ s1, systemThemeChanged false (new emptyBrowser) = Except.ok s1 ∧
      s1.currentTheme = (if false then "default" else "ocean") ∧
      getItem "portfolio_theme" s1.storage = some (if false then "default" else "ocean") ∧
      s1.prefersDarkMode = false :=
  ⟨rfl, systemThemeChanged_absent false (new emptyBrowser) rfl⟩

/-- C12 (counterexample): with the empty string stored under
`portfolio_theme`, a change event with value `false` applies `ocean`: the
current theme name, the store, the style variable `--primary` and the class of
`<body>` change, and a `themeChanged` event is dispatched. -/
theorem systemThemeChanged_empty_entry :
    getItem "portfolio_theme" (new (browserWith (some "") "")).storage = some "" ∧
    ∃ s1, systemThemeChanged false (new (browserWith (some "") "")) = Except.ok s1 ∧
      (new (browserWith (some "") "")).currentTheme = "default" ∧ s1.currentTheme = "ocean" ∧
      getItem "portfolio_theme" s1.storage = some "ocean" ∧
      (new (browserWith (some "") "")).style "--primary" = none ∧
      s1.style "--primary" = some "#00D4AA" ∧
      s1.bodyClass = "theme-ocean" ∧
      (new (browserWith (some "") "")).events = [] ∧ s1.events.length = 1 :=
  ⟨rfl, _, rfl, rfl, rfl, rfl, rfl, rfl, rfl, rfl, rfl⟩

theorem systemThemeChanged_of_entry (d : Bool) (s : State) {v : String}
    (h : getItem "portfolio_theme" s.storage = some v) (hv : v ≠ "") :
    systemThemeChanged d s = Except.ok { s with prefersDarkMode := d } := by
  have hs : getItem "portfolio_theme" ({ s with prefersDarkMode := d } : State).storage = some v := h
  have hne : v.toList.isEmpty = false := by
    cases hd : v.toList with
    | nil => exact absurd (String.ext hd) hv
    | cons c cs => rfl
  simp only [systemThemeChanged, hs, hne]
  rfl

/-- C12 (amended): when a change event with value `d` arrives and the store
holds a non-empty entry under `portfolio_theme`, the listener sets
`prefersDarkMode` to `d` and changes nothing else. -/
theorem systemThemeChanged_manual (d : Bool) (s : State) (v : String)
    (h : getItem "portfolio_theme" s.storage = some v) (hv : v ≠ "") :
    systemThemeChanged d s = Except.ok { s with prefersDarkMode := d } :=
  systemThemeChanged_of_entry d s h hv

theorem systemThemeChanged_manual_witness :
    getItem "portfolio_theme" (new (browserWith (some "sunset") "")).storage = some "sunset" ∧
    "sunset" ≠ "" ∧
    systemThemeChanged true (new (browserWith (some "sunset") "")) =
      Except.ok { new (browserWith (some "sunset") "") with prefersDarkMode := true } :=
  ⟨rfl, by decide,
    systemThemeChanged_manual true (new (browserWith (some "sunset") "")) "sunset" rfl (by decide)⟩

/-! ## Start-up -/

/-- C13 (the code on an empty store): `init()` applies `default` and thereby
stores it under `portfolio_theme`; a later change event with value `d` then
finds an entry and applies nothing. The current theme name stays `default`
for both values of `d`, also for `d = false`, and no event is dispatched. -/
theorem init_then_systemThemeChanged (d : Bool) :
    getItem "portfolio_theme" (new emptyBrowser).storage = none ∧
    ∃ s1 s2, init (new emptyBrowser) = Except.ok s1 ∧
      getItem "portfolio_theme" s1.storage = some "default" ∧
      systemThemeChanged d s1 = Except.ok s2 ∧
      s2.currentTheme = "default" ∧ s2.events = s1.events ∧ s2.style = s1.style := by
  cases d <;> exact ⟨rfl, _, _, rfl, rfl, rfl, rfl, rfl, rfl⟩

theorem init_eq (s : State) :
    init s = applyTheme (loadSavedTheme s).currentTheme (loadSavedTheme s) := rfl

theorem loadSavedTheme_of_undefined (s : State)
    (h : getItem "portfolio_theme" s.storage = none ∨
      ∃ v, getItem "portfolio_theme" s.storage = some v ∧ themesGet v = none) :
    loadSavedTheme s = s := by
  rcases h with h | ⟨v, h, hv⟩
  · simp [loadSavedTheme, h]
  · simp [loadSavedTheme, h, hv]

theorem loadSavedTheme_of_found (s : State) {v : String}
    (h : getItem "portfolio_theme" s.storage = some v) (hv : (themesGet v).isSome) :
    loadSavedTheme s = { s with currentTheme := v } := by
  have hne : v.toList.isEmpty = false := by
    cases hd : v.toList with
    | nil =>
      have : v = "" := String.ext hd
      subst this
      exact absurd hv (by decide)
    | cons c cs => rfl
  simp only [loadSavedTheme, h, hne, hv]
  rfl

/-- Start-up where it does what the specification says: a stored palette name
is applied, and with no entry, or with a stored value the registry lookup does
not find, `default` is applied; the style variables are those of the palette. -/
theorem init_palette_or_default (b : Browser) :
    (∀ v, v ∈ paletteNames → getItem "portfolio_theme" b.storage = some v →
      ∃ p s1, themes.lookup v = some p ∧ init (new b) = Except.ok s1 ∧ s1.currentTheme = v ∧
        getItem "portfolio_theme" s1.storage = some v ∧
        s1.style = applyCustomProperties p b.style) ∧
    ((getItem "portfolio_theme" b.storage = none ∨
        ∃ v, getItem "portfolio_theme" b.storage = some v ∧ themesGet v = none) →
      ∃ p s1, themes.lookup "default" = some p ∧ init (new b) = Except.ok s1 ∧
        s1.currentTheme = "default" ∧ getItem "portfolio_theme" s1.storage = some "default" ∧
        s1.style = applyCustomProperties p b.style) := by
  constructor
  · intro v hv h
    obtain ⟨q, -, hget⟩ := themesGet_paletteNames hv
    have hl : loadSavedTheme (new b) = { new b with currentTheme := v } :=
      loadSavedTheme_of_found (new b) h (by simp [hget])
    obtain ⟨p, hp, happ⟩ := applyTheme_palette hv { new b with currentTheme := v }
    rw [init_eq, hl]
    exact ⟨p, _, hp, happ, rfl, by simp [appliedState, getItem, setItem], rfl⟩
  · intro h
    have hl : loadSavedTheme (new b) = new b := loadSavedTheme_of_undefined (new b) h
    obtain ⟨p, hp, happ⟩ := applyTheme_palette (by decide : "default" ∈ paletteNames) (new b)
    rw [init_eq, hl]
    exact ⟨p, _, hp, happ, rfl, by simp [appliedState, getItem, setItem], rfl⟩

/-- C14 (the code at the stored value `"isPrototypeOf"`): `"isPrototypeOf"` is
not a palette name, yet after `init()` it is the current theme name and the
stored value, no style variable of any palette has been written, and `<body>`
carries the class `theme-isPrototypeOf`. -/
theorem init_isPrototypeOf :
    "isPrototypeOf" ∉ paletteNames ∧
    ∃ s1, init (new (browserWith (some "isPrototypeOf") "")) = Except.ok s1 ∧
      s1.currentTheme = "isPrototypeOf" ∧
      getItem "portfolio_theme" s1.storage = some "isPrototypeOf" ∧
      s1.style = (browserWith (some "isPrototypeOf") "").style ∧
      s1.style "--primary" = none ∧
      s1.bodyClass = "theme-isPrototypeOf" :=
  ⟨by decide, _, rfl, rfl, rfl, rfl, rfl, rfl⟩

/-! ## No exception -/

theorem themesGet_some_mem {n : String} {theme : ThemeValue} (h : themesGet n = some theme) :
    n ∈ paletteNames ∨ n ∈ objectPrototypeKeys := by
  by_cases hp : n ∈ objectPrototypeKeys
  · exact Or.inr hp
  · left
    by_contra hn
    have hl : themes.lookup n = none := by
      have h1 : ¬ n = "default" := fun e => hn (mem_paletteNames.mpr (Or.inl e))
      have h2 : ¬ n = "ocean" := fun e => hn (mem_paletteNames.mpr (Or.inr (Or.inl e)))
      have h3 : ¬ n = "sunset" := fun e => hn (mem_paletteNames.mpr (Or.inr (Or.inr (Or.inl e))))
      have h4 : ¬ n = "forest" := fun e => hn (mem_paletteNames.mpr (Or.inr (Or.inr (Or.inr e))))
      have e1 : (n == "default") = false := by simp [h1]
      have e2 : (n == "ocean") = false := by simp [h2]
      have e3 : (n == "sunset") = false := by simp [h3]
      have e4 : (n == "forest") = false := by simp [h4]
      simp only [themes, List.lookup, e1, e2, e3, e4]
    simp [themesGet, hl, hp] at h

theorem applyTheme_total (n : String) (s : State) : ∃ s1, applyTheme n s = Except.ok s1 := by
  cases h : themesGet n with
  | none => exact ⟨s, applyTheme_undefined s h⟩
  | some theme =>
    rcases themesGet_some_mem h with hn | hn
    · obtain ⟨p, -, happ⟩ := applyTheme_palette hn s
      exact ⟨_, happ⟩
    · exact ⟨_, applyTheme_inherited hn s⟩

theorem applyThemeE_available (n : String) (s : State) :
    ∃ s1, applyThemeE StorageAccess.available n s = JS.Completion.normal s1 ∧
      applyTheme n s = Except.ok s1 := by
  cases h : themesGet n with
  | none => exact ⟨s, by simp only [applyThemeE, h], applyTheme_undefined s h⟩
  | some theme =>
    have hcls : classListAdd ("theme-" ++ n) (removeThemeMarkers s.bodyClass) =
        Except.ok (markedClass n s.bodyClass) := by
      rcases themesGet_some_mem h with hn | hn
      · exact classListAdd_palette hn _
      · simp only [objectPrototypeKeys, List.mem_cons, List.mem_singleton, List.not_mem_nil,
          or_false] at hn
        rcases hn with rfl | rfl | rfl | rfl | rfl | rfl | rfl | rfl | rfl | rfl | rfl | rfl <;> rfl
    refine ⟨appliedState n theme (markedClass n s.bodyClass) s, ?_, applyTheme_eq s h hcls⟩
    simp only [applyThemeE, h, hcls, setItemE]
    rfl

theorem loadSavedThemeE_of_read (access : StorageAccess) (s : State)
    (h : access ≠ StorageAccess.denied) :
    loadSavedThemeE access s = JS.Completion.normal (loadSavedTheme s) := by
  have hget : getItemE access "portfolio_theme" s.storage =
      Except.ok (getItem "portfolio_theme" s.storage) := by
    cases access
    · rfl
    · rfl
    · exact absurd rfl h
  cases hg : getItem "portfolio_theme" s.storage with
  | none => simp only [loadSavedThemeE, hget, hg, loadSavedTheme]
  | some v =>
    simp only [loadSavedThemeE, hget, hg, loadSavedTheme]
    split <;> rfl

/-- Outside the assumption of the specification that storage is always
available: with a store that takes no new value, `applyTheme("ocean")` on a
newly constructed manager raises the `QuotaExceededError` of `setItem`, after
the style variables, the class of `<body>` and the current theme name are
written and before any event is dispatched; and with storage denied to the
page `loadSavedTheme` raises the `SecurityError` of the read. -/
theorem applyThemeE_full_raises :
    (∃ s1, applyThemeE StorageAccess.full "ocean" (new emptyBrowser) =
        JS.Completion.raised JS.JSError.quotaExceededError s1 ∧
      s1.currentTheme = "ocean" ∧ s1.bodyClass = "theme-ocean" ∧
      s1.style "--primary" = some "#00D4AA" ∧
      getItem "portfolio_theme" s1.storage = none ∧ s1.events = []) ∧
    loadSavedThemeE StorageAccess.denied (new emptyBrowser) =
      JS.Completion.raised JS.JSError.securityError (new emptyBrowser) :=
  ⟨⟨_, rfl, rfl, rfl, rfl, rfl, rfl⟩, rfl⟩

/-- C15: with storage available, as the specification assumes,
`applyTheme(n)` completes without raising for every string `n` and every
state, with the result of `applyTheme`, and `loadSavedTheme` completes without
raising for every state and store content, with the result of
`loadSavedTheme`. The two methods catch no exception, and the only statements
of theirs that can raise on some input are `classList.add` and the two storage
calls: `loadSavedTheme` raises exactly when the read is denied, and
`applyTheme(n)` exactly when the lookup finds a value and the write is
refused, so never through `classList.add`. -/
theorem theme_operations_complete (n : String) (s : State) :
    (∃ s1, applyThemeE StorageAccess.available n s = JS.Completion.normal s1 ∧
      applyTheme n s = Except.ok s1) ∧
    loadSavedThemeE StorageAccess.available s = JS.Completion.normal (loadSavedTheme s) ∧
    (∀ access, (∃ e st, loadSavedThemeE access s = JS.Completion.raised e st) ↔
      access = StorageAccess.denied) ∧
    (∀ access, (∃ e st, applyThemeE access n s = JS.Completion.raised e st) ↔
      ((themesGet n).isSome ∧ access ≠ StorageAccess.available)) := by
  refine ⟨applyThemeE_available n s, loadSavedThemeE_of_read _ s (by decide), ?_, ?_⟩
  · intro access
    cases access
    · refine ⟨?_, fun h => by cases h⟩
      rintro ⟨e, st, h⟩
      rw [loadSavedThemeE_of_read _ s (by decide)] at h
      cases h
    · refine ⟨?_, fun h => by cases h⟩
      rintro ⟨e, st, h⟩
      rw [loadSavedThemeE_of_read _ s (by decide)] at h
      cases h
    · exact ⟨fun _ => rfl, fun _ => ⟨_, _, rfl⟩⟩
  · intro access
    cases h : themesGet n with
    | none =>
      refine ⟨?_, fun hh => by simp at hh⟩
      rintro ⟨e, st, hr⟩
      simp only [applyThemeE, h] at hr
      cases hr
    | some theme =>
      have hcls : classListAdd ("theme-" ++ n) (removeThemeMarkers s.bodyClass) =
          Except.ok (markedClass n s.bodyClass) := by
        rcases themesGet_some_mem h with hn | hn
        · exact classListAdd_palette hn _
        · simp only [objectPrototypeKeys, List.mem_cons, List.mem_singleton, List.not_mem_nil,
            or_false] at hn
          rcases hn with rfl | rfl | rfl | rfl | rfl | rfl | rfl | rfl | rfl | rfl | rfl | rfl <;>
            rfl
      cases access
      · refine ⟨?_, fun hh => absurd rfl hh.2⟩
        rintro ⟨e, st, hr⟩
        simp only [applyThemeE, h, hcls, setItemE] at hr
        cases hr
      · refine ⟨fun _ => ⟨rfl, by decide⟩, fun _ => ?_⟩
        simp only [applyThemeE, h, hcls, setItemE]
        exact ⟨_, _, rfl⟩
      · refine ⟨fun _ => ⟨rfl, by decide⟩, fun _ => ?_⟩
        simp only [applyThemeE, h, hcls, setItemE]
        exact ⟨_, _, rfl⟩

/-! ## Who writes the current theme name -/

/-- C16 (counterexample): `loadSavedTheme` writes the current theme name. On a
newly constructed manager whose store holds `forest` it changes it from
`default` to `forest`. -/
theorem loadSavedTheme_writes_currentTheme :
    (new (browserWith (some "forest") "")).currentTheme = "default" ∧
    (loadSavedTheme (new (browserWith (some "forest") ""))).currentTheme = "forest" :=
  ⟨rfl, rfl⟩

/-- C16 (amended): apart from `applyTheme`, only `loadSavedTheme` writes the
current theme name, and it either leaves it as it was or sets it to the stored
value, which the registry lookup then finds. The system-preference listener,
when the store holds a non-empty entry so that it does not call `applyTheme`,
`getThemeColors` and `getCurrentTheme` leave the current theme name, and the
two getters the whole state, as they were. -/
theorem currentTheme_writers (s : State) :
    ((loadSavedTheme s).currentTheme = s.currentTheme ∨
      (getItem "portfolio_theme" s.storage = some (loadSavedTheme s).currentTheme ∧
        (themesGet (loadSavedTheme s).currentTheme).isSome)) ∧
    (∀ d v, getItem "portfolio_theme" s.storage = some v → v ≠ "" →
      ∃ s1, systemThemeChanged d s = Except.ok s1 ∧ s1.currentTheme = s.currentTheme) ∧
    (∀ a, (getThemeColors a s).2 = s) ∧
    (getCurrentTheme s).2 = s ∧ (getCurrentTheme s).1 = s.currentTheme := by
  refine ⟨?_, ?_, ?_, rfl, rfl⟩
  · cases h : getItem "portfolio_theme" s.storage with
    | none => exact Or.inl (by rw [loadSavedTheme_of_undefined s (Or.inl h)])
    | some v =>
      cases hv : themesGet v with
      | none => exact Or.inl (by rw [loadSavedTheme_of_undefined s (Or.inr ⟨v, h, hv⟩)])
      | some theme =>
        right
        rw [loadSavedTheme_of_found s h (by simp [hv])]
        exact ⟨rfl, by simp [hv]⟩
  · intro d v h hv
    exact ⟨_, systemThemeChanged_of_entry d s h hv, rfl⟩
  · intro a
    simp only [getThemeColors]
    split <;> rfl

theorem currentTheme_writers_witness :
    getItem "portfolio_theme" (new (browserWith (some "sunset") "")).storage = some "sunset" ∧
    "sunset" ≠ "" ∧
    ∃ s1, systemThemeChanged true (new (browserWith (some "sunset") "")) = Except.ok s1 ∧
      s1.currentTheme = (new (browserWith (some "sunset") "")).currentTheme :=
  ⟨rfl, by decide,
    (currentTheme_writers (new (browserWith (some "sunset") ""))).2.1 true "sunset" rfl
      (by decide)⟩

/-! ## `getThemeColors` -/

theorem getThemeColors_palette_or_default (s : State) :
    (∀ n, n ∈ paletteNames → ∃ p, themes.lookup n = some p ∧
      (getThemeColors (some n) s).1 = some (ThemeValue.palette p)) ∧
    (∀ n, themesGet n = none → ∃ p, themes.lookup "default" = some p ∧
      (getThemeColors (some n) s).1 = some (ThemeValue.palette p)) ∧
    (getThemeColors none s).1 = (getThemeColors (some s.currentTheme) s).1 := by
  refine ⟨?_, ?_, rfl⟩
  · intro n hn
    obtain ⟨p, hp, hget⟩ := themesGet_paletteNames hn
    exact ⟨p, hp, by simp [getThemeColors, hget]⟩
  · intro n hn
    exact ⟨_, rfl, by simp only [getThemeColors, hn]; rfl⟩

/-- C17 (the code at `"toLocaleString"`): `"toLocaleString"` is not a palette
name, yet `getThemeColors("toLocaleString")` returns the inherited function,
not the `default` palette; and without an argument, on a manager whose current
theme name is `toLocaleString`, it returns that function as well. -/
theorem getThemeColors_toLocaleString (s : State) :
    "toLocaleString" ∉ paletteNames ∧
    (getThemeColors (some "toLocaleString") s).1 = some (ThemeValue.inherited "toLocaleString") ∧
    (getThemeColors (some "toLocaleString") s).1 ≠ themesGet "default" ∧
    (getThemeColors none { s with currentTheme := "toLocaleString" }).1 =
      some (ThemeValue.inherited "toLocaleString") :=
  ⟨by decide, rfl,
    by
      show some (ThemeValue.inherited "toLocaleString") ≠ themesGet "default"
      decide,
    rfl⟩

/-! ## What `loadSavedTheme` depends on -/

theorem applyTheme_of_some {n : String} {theme : ThemeValue} {s s1 : State}
    (hget : themesGet n = some theme) (h : applyTheme n s = Except.ok s1) :
    ∃ cls, s1 = appliedState n theme cls s := by
  cases hc : classListAdd ("theme-" ++ n) (removeThemeMarkers s.bodyClass) with
  | error e => simp [applyTheme, hget, hc] at h
  | ok cls =>
    rw [applyTheme_eq s hget hc] at h
    exact ⟨cls, (Except.ok.inj h).symm⟩

/-- In every state the manager reaches, the current theme name is `default`
or it is the stored value, and then the registry lookup finds it. -/
theorem reachable_default_or_stored {b : Browser} {s : State} (h : Reachable b s) :
    s.currentTheme = "default" ∨
      (getItem "portfolio_theme" s.storage = some s.currentTheme ∧
        (themesGet s.currentTheme).isSome) := by
  have happly : ∀ (n : String) (s s1 : State),
      (s.currentTheme = "default" ∨ (getItem "portfolio_theme" s.storage = some s.currentTheme ∧
        (themesGet s.currentTheme).isSome)) →
      applyTheme n s = Except.ok s1 →
      (s1.currentTheme = "default" ∨ (getItem "portfolio_theme" s1.storage = some s1.currentTheme ∧
        (themesGet s1.currentTheme).isSome)) := by
    intro n s s1 ih h1
    cases hget : themesGet n with
    | none =>
      rw [applyTheme_undefined s hget] at h1
      obtain rfl := Except.ok.inj h1
      exact ih
    | some theme =>
      obtain ⟨cls, rfl⟩ := applyTheme_of_some hget h1
      right
      exact ⟨by simp [appliedState, getItem, setItem], by simp [appliedState, hget]⟩
  induction h with
  | construct => exact Or.inl rfl
  | @load s _ ih =>
    cases hs : getItem "portfolio_theme" s.storage with
    | none => rw [loadSavedTheme_of_undefined s (Or.inl hs)]; exact ih
    | some v =>
      cases hv : themesGet v with
      | none => rw [loadSavedTheme_of_undefined s (Or.inr ⟨v, hs, hv⟩)]; exact ih
      | some theme =>
        rw [loadSavedTheme_of_found s hs (by simp [hv])]
        exact Or.inr ⟨hs, by simp [hv]⟩
  | @apply s s1 n _ h1 ih => exact happly n s s1 ih h1
  | @systemChange s s1 d _ h1 ih =>
    have ih1 : ({ s with prefersDarkMode := d } : State).currentTheme = "default" ∨
        (getItem "portfolio_theme" ({ s with prefersDarkMode := d } : State).storage =
            some ({ s with prefersDarkMode := d } : State).currentTheme ∧
          (themesGet ({ s with prefersDarkMode := d } : State).currentTheme).isSome) := ih
    simp only [systemThemeChanged] at h1
    split at h1
    · split at h1
      · exact happly _ _ s1 ih1 h1
      · obtain rfl := Except.ok.inj h1
        exact ih1
    · exact happly _ _ s1 ih1 h1

/-- What `loadSavedTheme` does in every state, reachable or not: a stored
palette name becomes the current theme name; with no entry, or with a value the
registry lookup does not find (the empty string is one), the current theme
name is left as it was, which is `default` on a newly constructed manager and
in every state the manager reaches. -/
theorem loadSavedTheme_result (s t : State) :
    (getItem "portfolio_theme" s.storage = getItem "portfolio_theme" t.storage →
      s.currentTheme = t.currentTheme →
      (loadSavedTheme s).currentTheme = (loadSavedTheme t).currentTheme) ∧
    (∀ v, v ∈ paletteNames → getItem "portfolio_theme" s.storage = some v →
      (loadSavedTheme s).currentTheme = v) ∧
    ((getItem "portfolio_theme" s.storage = none ∨
        ∃ v, getItem "portfolio_theme" s.storage = some v ∧ themesGet v = none) →
      (loadSavedTheme s).currentTheme = s.currentTheme ∧
      (∀ b, s = new b → (loadSavedTheme s).currentTheme = "default") ∧
      (∀ b, Reachable b s → (loadSavedTheme s).currentTheme = "default")) := by
  refine ⟨?_, ?_, ?_⟩
  · intro hst hc
    simp only [loadSavedTheme, ← hst]
    split
    · exact hc
    · split
      · rfl
      · exact hc
  · intro v hv h
    obtain ⟨q, -, hget⟩ := themesGet_paletteNames hv
    rw [loadSavedTheme_of_found s h (by simp [hget])]
  · intro h
    rw [loadSavedTheme_of_undefined s h]
    refine ⟨rfl, ?_, ?_⟩
    · rintro b rfl
      rfl
    · intro b hb
      rcases reachable_default_or_stored hb with hd | ⟨hst, hsome⟩
      · exact hd
      · rcases h with h | ⟨v, h, hv⟩
        · rw [h] at hst
          exact absurd hst (by simp)
        · rw [h] at hst
          obtain rfl := Option.some.inj hst
          rw [hv] at hsome
          exact absurd hsome (by simp)

/-- In the states the manager reaches, the current theme name after
`loadSavedTheme` is a function of the stored value: the stored value when it
is not empty and the lookup finds it, and `default` otherwise. -/
theorem loadSavedTheme_of_reachable {b : Browser} {s : State} (h : Reachable b s) :
    (loadSavedTheme s).currentTheme =
      match getItem "portfolio_theme" s.storage with
      | none => "default"
      | some v => if (themesGet v).isSome then v else "default" := by
  cases hs : getItem "portfolio_theme" s.storage with
  | none =>
    rw [loadSavedTheme_of_undefined s (Or.inl hs)]
    rcases reachable_default_or_stored h with hd | ⟨hst, -⟩
    · exact hd
    · rw [hs] at hst
      exact absurd hst (by simp)
  | some v =>
    cases hv : themesGet v with
    | none =>
      rw [loadSavedTheme_of_undefined s (Or.inr ⟨v, hs, hv⟩)]
      rcases reachable_default_or_stored h with hd | ⟨hst, hsome⟩
      · simpa [hv] using hd
      · rw [hs] at hst
        obtain rfl := Option.some.inj hst
        rw [hv] at hsome
        exact absurd hsome (by simp)
    | some theme =>
      rw [loadSavedTheme_of_found s hs (by simp [hv])]
      simp [hv]

/-- C18 (the code at the stored value `"propertyIsEnumerable"`): for any two
states the manager reaches that see the same stored value, the current theme
name after `loadSavedTheme` is the same, and it is `default` when the store has
no entry or a value the lookup does not find. But
`"propertyIsEnumerable"` is not a palette name, and with it stored on a newly
constructed manager the current theme name after `loadSavedTheme` is
`propertyIsEnumerable`, not `default`. -/
theorem loadSavedTheme_propertyIsEnumerable :
    (∀ (b1 b2 : Browser) (s t : State), Reachable b1 s → Reachable b2 t →
      getItem "portfolio_theme" s.storage = getItem "portfolio_theme" t.storage →
      (loadSavedTheme s).currentTheme = (loadSavedTheme t).currentTheme) ∧
    (∀ (b : Browser) (s : State), Reachable b s →
      (getItem "portfolio_theme" s.storage = none ∨
        ∃ v, getItem "portfolio_theme" s.storage = some v ∧ themesGet v = none) →
      (loadSavedTheme s).currentTheme = "default") ∧
    "propertyIsEnumerable" ∉ paletteNames ∧
    Reachable (browserWith (some "propertyIsEnumerable") "")
      (new (browserWith (some "propertyIsEnumerable") "")) ∧
    getItem "portfolio_theme" (new (browserWith (some "propertyIsEnumerable") "")).storage =
      some "propertyIsEnumerable" ∧
    (new (browserWith (some "propertyIsEnumerable") "")).currentTheme = "default" ∧
    (loadSavedTheme (new (browserWith (some "propertyIsEnumerable") ""))).currentTheme =
      "propertyIsEnumerable" := by
  refine ⟨?_, ?_, by decide, Reachable.construct, rfl, rfl, rfl⟩
  · intro b1 b2 s t hs ht hst
    rw [loadSavedTheme_of_reachable hs, loadSavedTheme_of_reachable ht, hst]
  · intro b s hs h
    rw [loadSavedTheme_of_reachable hs]
    rcases h with h | ⟨v, h, hv⟩
    · rw [h]
    · rw [h]
      simp [hv]

/-! ## `camelToKebab` against its reference definition -/

theorem isUpperAZ_iff (c : Char) : isUpperAZ c = true ↔ 65 ≤ c.toNat ∧ c.toNat ≤ 90 := by
  simp [isUpperAZ]

theorem toLower_of_not_upper {c : Char} (h : isUpperAZ c = false) : Char.toLower c = c := by
  have hb : ¬ (65 ≤ c.toNat ∧ c.toNat ≤ 90) := fun hh => by
    rw [(isUpperAZ_iff c).mpr hh] at h
    exact Bool.noConfusion h
  simp only [Char.toLower]
  rw [if_neg]
  simpa using hb

theorem isUpperAZ_toLower (c : Char) : isUpperAZ (Char.toLower c) = false := by
  cases h : isUpperAZ c with
  | true =>
    obtain ⟨h1, h2⟩ := (isUpperAZ_iff c).mp h
    rw [← Char.ofNat_toNat c]
    generalize c.toNat = n at h1 h2
    interval_cases n <;> decide
  | false => rw [toLower_of_not_upper h]; exact h

theorem isUpperAZ_of_lowerOrDigit {c : Char} (h : isLowerOrDigit c = true) :
    isUpperAZ c = false := by
  cases hu : isUpperAZ c with
  | false => rfl
  | true =>
    obtain ⟨h1, h2⟩ := (isUpperAZ_iff c).mp hu
    simp [isLowerOrDigit] at h
    omega

/-- The first alternative of the regular expression changes nothing: the
replacement puts a hyphen before every upper-case letter and keeps the rest. -/
theorem insertHyphens_eq (l : List Char) :
    insertHyphens l = l.flatMap (fun c => if isUpperAZ c then ['-', c] else [c]) := by
  induction l using insertHyphens.induct with
  | case1 => rfl
  | case2 c h => simp [insertHyphens, h]
  | case3 c h => simp [insertHyphens, h]
  | case4 c d rest h ih =>
    have hc : isUpperAZ c = false := isUpperAZ_of_lowerOrDigit (by simp_all)
    have hd : isUpperAZ d = true := by simp_all
    rw [insertHyphens, if_pos h, ih]
    simp [hc, hd]
  | case5 c d rest h hu ih =>
    rw [insertHyphens, if_neg h, if_pos hu, ih]
    simp [hu]
  | case6 c d rest h hu ih =>
    rw [insertHyphens, if_neg h, if_neg hu, ih]
    simp [hu]

theorem camelToKebab_eq_reference (str : String) :
    camelToKebab str = camelToKebabReference str := by
  simp only [camelToKebab, camelToKebabReference, toLowerCase, insertHyphens_eq, List.map_flatMap]
  congr 1
  apply List.flatMap_congr
  intro c _
  cases h : isUpperAZ c with
  | true => simp
  | false => simp [toLower_of_not_upper h]

theorem reference_chars (l : List Char) :
    (∀ c ∈ l.flatMap (fun c => if isUpperAZ c then ['-', Char.toLower c] else [c]),
      isUpperAZ c = false) ∧
    (l.flatMap (fun c => if isUpperAZ c then ['-', Char.toLower c] else [c])).length =
      l.length + (l.filter isUpperAZ).length ∧
    ((∀ c ∈ l, isUpperAZ c = false) →
      l.flatMap (fun c => if isUpperAZ c then ['-', Char.toLower c] else [c]) = l) := by
  induction l with
  | nil => simp
  | cons a l ih =>
    obtain ⟨ih1, ih2, ih3⟩ := ih
    cases h : isUpperAZ a with
    | true =>
      refine ⟨?_, ?_, ?_⟩
      · intro c hc
        simp only [List.flatMap_cons, h, if_true, List.mem_append, List.mem_cons,
          List.mem_singleton, List.not_mem_nil, or_false] at hc
        rcases hc with (rfl | rfl) | hc
        · decide
        · exact isUpperAZ_toLower a
        · exact ih1 c hc
      · simp only [List.flatMap_cons, h, if_true, List.length_append, List.length_cons,
          List.length_nil, ih2, List.filter_cons]
        omega
      · intro hall
        have := hall a (List.mem_cons_self a l)
        rw [h] at this
        exact Bool.noConfusion this
    | false =>
      refine ⟨?_, ?_, ?_⟩
      · intro c hc
        simp only [List.flatMap_cons, h, List.mem_append, List.mem_singleton] at hc
        rcases hc with hc | hc
        · simp at hc
          rw [hc]; exact h
        · exact ih1 c hc
      · simp only [List.flatMap_cons, h, List.length_append, List.length_cons,
          List.length_nil, ih2, List.filter_cons]
        simp
        omega
      · intro hall
        simp only [List.flatMap_cons, h]
        rw [ih3 (fun c hc => hall c (List.mem_cons_of_mem a hc))]
        simp

theorem reference_ascii (l : List Char) (h : ∀ a ∈ l, a.toNat < 128) :
    ∀ c ∈ l.flatMap (fun c => if isUpperAZ c then ['-', Char.toLower c] else [c]),
      c.toNat < 128 := by
  intro c hc
  obtain ⟨a, ha, hca⟩ := List.mem_flatMap.mp hc
  cases hu : isUpperAZ a with
  | true =>
    simp only [hu, if_true, List.mem_cons, List.mem_singleton, List.not_mem_nil, or_false] at hca
    rcases hca with rfl | rfl
    · decide
    · obtain ⟨h1, h2⟩ := (isUpperAZ_iff a).mp hu
      rw [← Char.ofNat_toNat a]
      generalize a.toNat = n at h1 h2
      interval_cases n <;> decide
  | false =>
    simp [hu] at hca
    rw [hca]
    exact h a ha

/-- C20: on ASCII text `camelToKebab` equals the reference definition (every
upper-case letter `A` to `Z` becomes `-` followed by its lower-case letter,
every other character is kept), and its output is ASCII text again. So the
output has no upper-case letter, its length is the input length plus the
number of upper-case letters, a string without upper-case letter is returned
unchanged, and `primaryDark` and `surfaceLight` map to `primary-dark` and
`surface-light`. -/
theorem camelToKebab_reference (str : String) (hascii : isAsciiText str) :
    camelToKebab str = camelToKebabReference str ∧
    isAsciiText (camelToKebab str) ∧
    (∀ c ∈ (camelToKebab str).toList, isUpperAZ c = false) ∧
    (camelToKebab str).length = str.length + upperCount str ∧
    (upperCount str = 0 → camelToKebab str = str) ∧
    camelToKebab "primaryDark" = "primary-dark" ∧
    camelToKebab "surfaceLight" = "surface-light" := by
  obtain ⟨h1, h2, h3⟩ := reference_chars str.toList
  rw [camelToKebab_eq_reference]
  refine ⟨rfl, reference_ascii str.toList hascii, h1, h2, ?_, by decide, by decide⟩
  intro h0
  have hall : ∀ c ∈ str.toList, isUpperAZ c = false := by
    intro c hc
    cases hu : isUpperAZ c with
    | false => rfl
    | true =>
      have hmem : c ∈ str.toList.filter isUpperAZ := List.mem_filter.mpr ⟨hc, hu⟩
      have hnil : str.toList.filter isUpperAZ = [] := List.length_eq_zero.mp h0
      rw [hnil] at hmem
      exact absurd hmem (List.not_mem_nil c)
  simp only [camelToKebabReference, h3 hall]
  rfl

theorem camelToKebab_reference_witness :
    isAsciiText "backgroundColorX2" ∧
    camelToKebab "backgroundColorX2" = camelToKebabReference "backgroundColorX2" ∧
    isAsciiText (camelToKebab "backgroundColorX2") ∧
    (∀ c ∈ (camelToKebab "backgroundColorX2").toList, isUpperAZ c = false) ∧
    (camelToKebab "backgroundColorX2").length =
      "backgroundColorX2".length + upperCount "backgroundColorX2" ∧
    (upperCount "backgroundColorX2" = 0 → camelToKebab "backgroundColorX2" = "backgroundColorX2") ∧
    camelToKebab "primaryDark" = "primary-dark" ∧
    camelToKebab "surfaceLight" = "surface-light" :=
  ⟨by unfold isAsciiText; decide,
    camelToKebab_reference "backgroundColorX2" (by unfold isAsciiText; decide)⟩

/-! ## The class list, token by token -/

theorem themeMarkerAt_iff (l : List Char) :
    themeMarkerAt l = true ↔
      ∃ w tl, l = 't' :: 'h' :: 'e' :: 'm' :: 'e' :: '-' :: w :: tl ∧ isWordChar w = true := by
  rcases l with _ | ⟨a1, _ | ⟨a2, _ | ⟨a3, _ | ⟨a4, _ | ⟨a5, _ | ⟨a6, _ | ⟨a7, tl⟩⟩⟩⟩⟩⟩⟩ <;>
    simp [themeMarkerAt, List.isPrefixOf]
  constructor
  · rintro ⟨⟨rfl, rfl, rfl, rfl, rfl, rfl⟩, h⟩
    exact ⟨a7, ⟨rfl, rfl, rfl, rfl, rfl, rfl, rfl⟩, h⟩
  · rintro ⟨w, ⟨rfl, rfl, rfl, rfl, rfl, rfl, rfl⟩, h⟩
    exact ⟨⟨rfl, rfl, rfl, rfl, rfl, rfl⟩, h⟩

theorem whitespace_cases {w : Char} (h : isAsciiWhitespace w = true) :
    w = ' ' ∨ w = '\t' ∨ w = '\n' ∨ w = '\x0c' ∨ w = '\r' := by
  simp only [isAsciiWhitespace, Bool.or_eq_true, beq_iff_eq] at h
  tauto

theorem whitespace_not_marker {w : Char} (h : isAsciiWhitespace w = true) :
    isWordChar w = false ∧ w ≠ 't' ∧ w ≠ 'h' ∧ w ≠ 'e' ∧ w ≠ 'm' ∧ w ≠ '-' := by
  rcases whitespace_cases h with rfl | rfl | rfl | rfl | rfl <;> decide

theorem themeMarkerAt_whitespace {w : Char} (r : List Char) (h : isAsciiWhitespace w = true) :
    themeMarkerAt (w :: r) = false := by
  cases hm : themeMarkerAt (w :: r) with
  | false => rfl
  | true =>
    obtain ⟨x, tl, hl, -⟩ := (themeMarkerAt_iff _).mp hm
    exact absurd (List.cons.inj hl).1 (whitespace_not_marker h).2.1

/-- A match cannot run over the end of a token. -/
theorem themeMarkerAt_append (u : List Char) {rest : List Char} (h : TokenEnd rest) :
    themeMarkerAt (u ++ rest) = themeMarkerAt u := by
  rcases h with rfl | ⟨w, r, rfl, hw⟩
  · simp
  · obtain ⟨hw0, ht, hh, he, hm, hd⟩ := whitespace_not_marker hw
    rcases u with _ | ⟨a1, _ | ⟨a2, _ | ⟨a3, _ | ⟨a4, _ | ⟨a5, _ | ⟨a6, _ | ⟨a7, tl⟩⟩⟩⟩⟩⟩⟩ <;>
      simp [themeMarkerAt, List.isPrefixOf, hw0, Ne.symm ht, Ne.symm hh, Ne.symm he, Ne.symm hm,
        Ne.symm hd]

theorem removeThemeMarkersFrom_whitespace (b : Bool) {w : Char} (r : List Char)
    (h : isAsciiWhitespace w = true) :
    removeThemeMarkersFrom 0 b (w :: r) = w :: removeThemeMarkersFrom 0 false r := by
  simp [removeThemeMarkersFrom, (whitespace_not_marker h).1, themeMarkerAt_whitespace r h]

theorem tokenEnd_removeThemeMarkersFrom (b : Bool) {rest : List Char} (h : TokenEnd rest) :
    TokenEnd (removeThemeMarkersFrom 0 b rest) := by
  rcases h with rfl | ⟨w, r, rfl, hw⟩
  · exact Or.inl rfl
  · exact Or.inr ⟨w, _, removeThemeMarkersFrom_whitespace b r hw, hw⟩

theorem removeThemeMarkersFrom_inWord_tokenEnd {rest : List Char} (h : TokenEnd rest) :
    removeThemeMarkersFrom 0 true rest = removeThemeMarkersFrom 0 false rest := by
  rcases h with rfl | ⟨w, r, rfl, hw⟩
  · rfl
  · rw [removeThemeMarkersFrom_whitespace true r hw, removeThemeMarkersFrom_whitespace false r hw]

/-- A token without a match is copied. -/
theorem removeThemeMarkersFrom_copy (t : List Char) {rest : List Char}
    (ht : hasThemeMarker t = false) (h : TokenEnd rest) :
    removeThemeMarkersFrom 0 false (t ++ rest) = t ++ removeThemeMarkersFrom 0 false rest := by
  induction t with
  | nil => rfl
  | cons a t ih =>
    simp only [hasThemeMarker, Bool.or_eq_false_iff] at ht
    have hm : themeMarkerAt (a :: (t ++ rest)) = false := by
      have := themeMarkerAt_append (a :: t) h
      rw [List.cons_append] at this
      rw [this, ht.1]
    simp [removeThemeMarkersFrom, hm, ih ht.2]

theorem removeThemeMarkersFrom_word (u : List Char) (rest : List Char)
    (hu : ∀ c ∈ u, isWordChar c = true) :
    removeThemeMarkersFrom 0 true (u ++ rest) = removeThemeMarkersFrom 0 true rest := by
  induction u with
  | nil => rfl
  | cons a u ih =>
    have ha : isWordChar a = true := hu a (List.mem_cons_self a u)
    simp [removeThemeMarkersFrom, ha, ih (fun c hc => hu c (List.mem_cons_of_mem a hc))]

/-- A token that is one match is deleted. -/
theorem removeThemeMarkersFrom_delete (t : List Char) {rest : List Char}
    (ht : isThemeClass t = true) (h : TokenEnd rest) :
    removeThemeMarkersFrom 0 false (t ++ rest) = removeThemeMarkersFrom 0 false rest := by
  simp only [isThemeClass, Bool.and_eq_true] at ht
  obtain ⟨hm, hall⟩ := ht
  obtain ⟨w, tl, rfl, hw⟩ := (themeMarkerAt_iff t).mp hm
  have hm1 : themeMarkerAt ('t' :: 'h' :: 'e' :: 'm' :: 'e' :: '-' :: w :: (tl ++ rest)) = true :=
    (themeMarkerAt_iff _).mpr ⟨w, _, rfl, hw⟩
  have htl : ∀ c ∈ tl, isWordChar c = true := by
    intro c hc
    simp only [List.drop, List.all_cons, Bool.and_eq_true, List.all_eq_true] at hall
    exact hall.2 c hc
  have hskip : ∀ x, removeThemeMarkersFrom 6 true ('h' :: 'e' :: 'm' :: 'e' :: '-' :: w :: x) =
      removeThemeMarkersFrom 0 true x := fun x => by simp only [removeThemeMarkersFrom]
  show removeThemeMarkersFrom 0 false ('t' :: 'h' :: 'e' :: 'm' :: 'e' :: '-' :: w :: (tl ++ rest)) =
    removeThemeMarkersFrom 0 false rest
  rw [removeThemeMarkersFrom]
  simp only [Bool.false_and, Bool.false_eq_true, if_false, hm1, if_true]
  rw [hskip, removeThemeMarkersFrom_word tl rest htl, removeThemeMarkersFrom_inWord_tokenEnd h]

theorem splitOnWhitespace_whitespace {w : Char} (r : List Char)
    (h : isAsciiWhitespace w = true) :
    splitOnWhitespace [] (w :: r) = splitOnWhitespace [] r := by
  simp [splitOnWhitespace, h]

theorem splitOnWhitespace_append (cur t rest : List Char)
    (ht : ∀ c ∈ t, isAsciiWhitespace c = false) :
    splitOnWhitespace cur (t ++ rest) = splitOnWhitespace (cur ++ t) rest := by
  induction t generalizing cur with
  | nil => simp
  | cons a t ih =>
    have ha : isAsciiWhitespace a = false := ht a (List.mem_cons_self a t)
    rw [List.cons_append, splitOnWhitespace]
    simp only [ha, Bool.false_eq_true, if_false]
    rw [ih (cur ++ [a]) (fun c hc => ht c (List.mem_cons_of_mem a hc))]
    simp

/-- The first token of a text that starts with one. -/
theorem splitOnWhitespace_token {t rest : List Char} (hne : t ≠ [])
    (ht : ∀ c ∈ t, isAsciiWhitespace c = false) (h : TokenEnd rest) :
    splitOnWhitespace [] (t ++ rest) = String.mk t :: splitOnWhitespace [] rest := by
  rw [splitOnWhitespace_append [] t rest ht, List.nil_append]
  have hemp : t.isEmpty = false := by
    cases t with
    | nil => exact absurd rfl hne
    | cons a t => rfl
  rcases h with rfl | ⟨w, r, rfl, hw⟩
  · simp [splitOnWhitespace, hemp]
  · rw [splitOnWhitespace_whitespace r hw]
    rw [splitOnWhitespace]
    simp [hw, hemp]

theorem exists_first_token (c : Char) (cs : List Char) (hc : isAsciiWhitespace c = false) :
    ∃ t rest, c :: cs = (c :: t) ++ rest ∧ (∀ x ∈ c :: t, isAsciiWhitespace x = false) ∧
      TokenEnd rest := by
  induction cs generalizing c with
  | nil => exact ⟨[], [], rfl, by simpa using hc, Or.inl rfl⟩
  | cons d ds ih =>
    cases hd : isAsciiWhitespace d with
    | true => exact ⟨[], d :: ds, rfl, by simpa using hc, Or.inr ⟨d, ds, rfl, hd⟩⟩
    | false =>
      obtain ⟨t, rest, hl, ht, hend⟩ := ih d hd
      refine ⟨d :: t, rest, ?_, ?_, hend⟩
      · rw [hl]; rfl
      · intro x hx
        rcases List.mem_cons.mp hx with rfl | hx
        · exact hc
        · exact ht x hx

theorem splitOnWhitespace_valid (l cur : List Char)
    (hcur : ∀ c ∈ cur, isAsciiWhitespace c = false) :
    ∀ t ∈ splitOnWhitespace cur l,
      t.toList ≠ [] ∧ ∀ c ∈ t.toList, isAsciiWhitespace c = false := by
  induction l generalizing cur with
  | nil =>
    intro t ht
    cases cur with
    | nil => simp [splitOnWhitespace] at ht
    | cons a cur =>
      simp only [splitOnWhitespace, List.isEmpty_cons, Bool.false_eq_true, if_false,
        List.mem_singleton] at ht
      subst ht
      exact ⟨by simp, hcur⟩
  | cons a l ih =>
    intro t ht
    rw [splitOnWhitespace] at ht
    cases ha : isAsciiWhitespace a with
    | true =>
      simp only [ha, if_true] at ht
      cases cur with
      | nil =>
        simp only [List.isEmpty_nil, if_true] at ht
        exact ih [] (by simp) t ht
      | cons b cur =>
        simp only [List.isEmpty_cons, Bool.false_eq_true, if_false, List.mem_cons] at ht
        rcases ht with rfl | ht
        · exact ⟨by simp, hcur⟩
        · exact ih [] (by simp) t ht
    | false =>
      simp only [ha, Bool.false_eq_true, if_false] at ht
      refine ih (cur ++ [a]) ?_ t ht
      intro c hc
      rcases List.mem_append.mp hc with hc | hc
      · exact hcur c hc
      · rw [List.mem_singleton.mp hc]; exact ha

theorem isThemeClass_hasThemeMarker {t : List Char} (h : isThemeClass t = true) :
    hasThemeMarker t = true := by
  simp only [isThemeClass, Bool.and_eq_true] at h
  cases t with
  | nil => simp [themeMarkerAt, List.isPrefixOf] at h
  | cons a t => simp [hasThemeMarker, h.1]

/-- When matches are whole tokens, the replacement deletes exactly the tokens
that are matches and leaves every other token as it is. -/
theorem splitOnWhitespace_removeThemeMarkersFrom (l : List Char)
    (h : ∀ t ∈ splitOnWhitespace [] l,
      hasThemeMarker t.toList = false ∨ isThemeClass t.toList = true) :
    splitOnWhitespace [] (removeThemeMarkersFrom 0 false l) =
      (splitOnWhitespace [] l).filter (fun t => !hasThemeMarker t.toList) := by
  obtain ⟨n, hn⟩ : ∃ n, l.length = n := ⟨_, rfl⟩
  induction n using Nat.strong_induction_on generalizing l with
  | _ n ih =>
    cases l with
    | nil => rfl
    | cons c cs =>
      cases hc : isAsciiWhitespace c with
      | true =>
        rw [splitOnWhitespace_whitespace cs hc] at h ⊢
        rw [removeThemeMarkersFrom_whitespace false cs hc, splitOnWhitespace_whitespace _ hc]
        exact ih cs.length (by rw [← hn]; simp) cs h rfl
      | false =>
        obtain ⟨t, rest, hl, ht, hend⟩ := exists_first_token c cs hc
        have hsplit := splitOnWhitespace_token (List.cons_ne_nil c t) ht hend
        have hlen : rest.length < n := by
          rw [← hn, hl]
          simp only [List.length_append, List.length_cons]
          omega
        rw [hl] at h ⊢
        rw [hsplit] at h ⊢
        have hrest : ∀ u ∈ splitOnWhitespace [] rest,
            hasThemeMarker u.toList = false ∨ isThemeClass u.toList = true :=
          fun u hu => h u (List.mem_cons_of_mem _ hu)
        have ihr := ih rest.length hlen rest hrest rfl
        rcases h (String.mk (c :: t)) (List.mem_cons_self _ _) with hfree | hcls
        · have hfree1 : hasThemeMarker (c :: t) = false := hfree
          rw [removeThemeMarkersFrom_copy (c :: t) hfree1 hend,
            splitOnWhitespace_token (List.cons_ne_nil c t) ht
              (tokenEnd_removeThemeMarkersFrom false hend), ihr]
          simp [hfree1]
        · have hcls1 : isThemeClass (c :: t) = true := hcls
          rw [removeThemeMarkersFrom_delete (c :: t) hcls1 hend, ihr]
          simp [isThemeClass_hasThemeMarker hcls1]

theorem orderedSet_filter (p : String → Bool) (l : List String) :
    orderedSet (l.filter p) = (orderedSet l).filter p := by
  induction l with
  | nil => rfl
  | cons t ts ih =>
    cases hp : p t with
    | true =>
      simp only [List.filter_cons, hp, if_true, orderedSet, ih, List.filter_filter]
      congr 1
      apply List.filter_congr
      intro x _
      rw [Bool.and_comm]
    | false =>
      simp only [List.filter_cons, hp, Bool.false_eq_true, if_false, orderedSet, ih,
        List.filter_filter]
      apply List.filter_congr
      intro x _
      by_cases hx : x = t
      · subst hx
        simp [hp]
      · simp [hx]

theorem mem_orderedSet {t : String} {l : List String} (h : t ∈ orderedSet l) : t ∈ l := by
  induction l with
  | nil => exact h
  | cons a l ih =>
    simp only [orderedSet, List.mem_cons, List.mem_filter] at h
    rcases h with rfl | ⟨h, -⟩
    · exact List.mem_cons_self _ _
    · exact List.mem_cons_of_mem _ (ih h)

theorem nodup_orderedSet (l : List String) : (orderedSet l).Nodup := by
  induction l with
  | nil => exact List.nodup_nil
  | cons a l ih =>
    simp only [orderedSet]
    refine List.nodup_cons.mpr ⟨?_, ih.filter _⟩
    simp [List.mem_filter]

theorem orderedSet_of_nodup {l : List String} (h : l.Nodup) : orderedSet l = l := by
  induction l with
  | nil => rfl
  | cons a l ih =>
    obtain ⟨ha, hl⟩ := List.nodup_cons.mp h
    simp only [orderedSet, ih hl]
    congr 1
    apply List.filter_eq_self.mpr
    intro x hx
    have : x ≠ a := fun e => ha (e ▸ hx)
    simp [this]

theorem intercalate_go_toList (acc sep : String) (l : List String) :
    (String.intercalate.go acc sep l).toList =
      acc.toList ++ l.flatMap (fun a => sep.toList ++ a.toList) := by
  induction l generalizing acc with
  | nil => simp [String.intercalate.go]
  | cons a l ih =>
    rw [String.intercalate.go, ih]
    simp [String.toList]

theorem splitOnWhitespace_spaced (l : List String) (h : ∀ t ∈ l, ValidToken t) :
    TokenEnd (l.flatMap (fun a => " ".toList ++ a.toList)) ∧
    splitOnWhitespace [] (l.flatMap (fun a => " ".toList ++ a.toList)) = l := by
  induction l with
  | nil => exact ⟨Or.inl rfl, rfl⟩
  | cons a l ih =>
    obtain ⟨hend, hsplit⟩ := ih (fun t ht => h t (List.mem_cons_of_mem a ht))
    obtain ⟨hne, hws⟩ := h a (List.mem_cons_self a l)
    have hsp : isAsciiWhitespace ' ' = true := by decide
    refine ⟨Or.inr ⟨' ', _, rfl, hsp⟩, ?_⟩
    show splitOnWhitespace [] (' ' :: (a.toList ++ l.flatMap (fun a => " ".toList ++ a.toList))) = a :: l
    rw [splitOnWhitespace_whitespace _ hsp, splitOnWhitespace_token hne hws hend, hsplit]
    rfl

/-- Reading back a serialized token set gives the token set. -/
theorem classTokens_intercalate (l : List String) (h : ∀ t ∈ l, ValidToken t) (hnd : l.Nodup) :
    classTokens (" ".intercalate l) = l := by
  have hsplit : splitOnWhitespace [] (" ".intercalate l).toList = l := by
    cases l with
    | nil => rfl
    | cons a l =>
      obtain ⟨hend, hs⟩ := splitOnWhitespace_spaced l (fun t ht => h t (List.mem_cons_of_mem a ht))
      obtain ⟨hne, hws⟩ := h a (List.mem_cons_self a l)
      show splitOnWhitespace [] (String.intercalate.go a " " l).toList = a :: l
      rw [intercalate_go_toList, splitOnWhitespace_token hne hws hend, hs]
      rfl
  rw [classTokens, hsplit, orderedSet_of_nodup hnd]

theorem classTokens_valid (c : String) : ∀ t ∈ classTokens c, ValidToken t := by
  intro t ht
  exact splitOnWhitespace_valid c.toList [] (by simp) t (mem_orderedSet ht)

theorem themeToken_palette {n : String} (hn : n ∈ paletteNames) :
    ValidToken ("theme-" ++ n) ∧ hasThemeMarker ("theme-" ++ n).toList = true := by
  rcases mem_paletteNames.mp hn with rfl | rfl | rfl | rfl <;>
    exact ⟨⟨by decide, by decide⟩, by decide⟩

/-- The class list `applyTheme(n)` leaves when the matches of `/theme-\w+/` in
the prior class attribute are whole tokens: the prior tokens that have no
match, in their order, and then `theme-n`. -/
theorem classTokens_markedClass {n : String} (hn : n ∈ paletteNames) (c : String)
    (h : markersAreTokens c) :
    classTokens (markedClass n c) =
      (classTokens c).filter (fun t => !hasThemeMarker t.toList) ++ ["theme-" ++ n] := by
  obtain ⟨hvalid, hmark⟩ := themeToken_palette hn
  have hset : classTokens (removeThemeMarkers c) =
      (classTokens c).filter (fun t => !hasThemeMarker t.toList) := by
    show orderedSet (splitOnWhitespace [] (removeThemeMarkersFrom 0 false c.toList)) = _
    rw [splitOnWhitespace_removeThemeMarkersFrom c.toList h, orderedSet_filter]
    rfl
  have hnot : "theme-" ++ n ∉ (classTokens c).filter (fun t => !hasThemeMarker t.toList) := by
    intro hmem
    have h2 : (!hasThemeMarker ("theme-" ++ n).toList) = true := (List.mem_filter.mp hmem).2
    rw [hmark] at h2
    exact Bool.noConfusion h2
  simp only [markedClass, hset, if_neg hnot]
  apply classTokens_intercalate
  · intro t ht
    rcases List.mem_append.mp ht with ht | ht
    · exact classTokens_valid c t (List.mem_filter.mp ht).1
    · rw [List.mem_singleton.mp ht]; exact hvalid
  · refine List.Nodup.append ((nodup_orderedSet _).filter _) (List.nodup_singleton _) ?_
    intro t ht hs
    rw [List.mem_singleton.mp hs] at ht
    exact hnot ht

/-- C19 (counterexample): `theme-transitioning`, the class
`animateThemeChange()` adds, is not a theme marker of a registry palette, yet
`applyTheme("ocean")` removes it; and on the class `dark-theme-v2` it leaves
the class `dark-`, which was not there before, in place of the token. -/
theorem applyTheme_removes_other_classes :
    "theme-transitioning" ∉ paletteNames.map (fun n => "theme-" ++ n) ∧
    (∃ s0 s1, animateThemeChange (new (browserWith none "hero")) = Except.ok s0 ∧
      classTokens s0.bodyClass = ["hero", "theme-transitioning"] ∧
      applyTheme "ocean" s0 = Except.ok s1 ∧
      classTokens s1.bodyClass = ["hero", "theme-ocean"]) ∧
    (∃ s1, applyTheme "ocean" (new (browserWith none "dark-theme-v2")) = Except.ok s1 ∧
      classTokens (new (browserWith none "dark-theme-v2")).bodyClass = ["dark-theme-v2"] ∧
      classTokens s1.bodyClass = ["dark-", "theme-ocean"]) :=
  ⟨by decide, ⟨_, _, rfl, by decide, rfl, by decide⟩, ⟨_, rfl, by decide, by decide⟩⟩

/-- C19 (amended): for every palette name `n` and every prior class attribute
of `<body>` in which every token either has no match of `/theme-\w+/` in it or
is as a whole `theme-` followed by word characters, the class list after
`applyTheme(n)` is the prior tokens without a match, unchanged and in their
order, followed by `theme-n`. So every such token is still present, and no
class other than `theme-n` is added. -/
theorem applyTheme_classTokens (n : String) (hn : n ∈ paletteNames) (s : State)
    (h : markersAreTokens s.bodyClass) :
    ∃ s1, applyTheme n s = Except.ok s1 ∧
      classTokens s1.bodyClass =
        (classTokens s.bodyClass).filter (fun t => !hasThemeMarker t.toList) ++ ["theme-" ++ n] ∧
      (∀ t ∈ classTokens s.bodyClass, hasThemeMarker t.toList = false →
        t ∈ classTokens s1.bodyClass) ∧
      (∀ t ∈ classTokens s1.bodyClass, t = "theme-" ++ n ∨ t ∈ classTokens s.bodyClass) := by
  obtain ⟨p, -, happ⟩ := applyTheme_palette hn s
  have hcls := classTokens_markedClass hn s.bodyClass h
  refine ⟨_, happ, hcls, ?_, ?_⟩
  · intro t ht hfree
    show t ∈ classTokens (markedClass n s.bodyClass)
    rw [hcls]
    refine List.mem_append_left _ (List.mem_filter.mpr ⟨ht, ?_⟩)
    show (!hasThemeMarker t.toList) = true
    rw [hfree]
    rfl
  · intro t ht
    have ht1 : t ∈ classTokens (markedClass n s.bodyClass) := ht
    rw [hcls] at ht1
    rcases List.mem_append.mp ht1 with ht1 | ht1
    · exact Or.inr (List.mem_filter.mp ht1).1
    · exact Or.inl (List.mem_singleton.mp ht1)

theorem applyTheme_classTokens_witness :
    "forest" ∈ paletteNames ∧
    markersAreTokens (new (browserWith none "hero theme-ocean  dark theme-transitioning")).bodyClass ∧
    ∃ s1, applyTheme "forest" (new (browserWith none "hero theme-ocean  dark theme-transitioning")) =
        Except.ok s1 ∧
      classTokens s1.bodyClass =
        (classTokens (new (browserWith none "hero theme-ocean  dark theme-transitioning")).bodyClass).filter
          (fun t => !hasThemeMarker t.toList) ++ ["theme-" ++ "forest"] ∧
      (∀ t ∈ classTokens (new (browserWith none "hero theme-ocean  dark theme-transitioning")).bodyClass,
        hasThemeMarker t.toList = false → t ∈ classTokens s1.bodyClass) ∧
      (∀ t ∈ classTokens s1.bodyClass, t = "theme-" ++ "forest" ∨
        t ∈ classTokens (new (browserWith none "hero theme-ocean  dark theme-transitioning")).bodyClass) :=
  ⟨by decide, by unfold markersAreTokens; decide,
    applyTheme_classTokens "forest" (by decide)
      (new (browserWith none "hero theme-ocean  dark theme-transitioning"))
      (by unfold markersAreTokens; decide)⟩

end ThemeManager

namespace NavigationManager

/-! ## The mobile menu -/

theorem getDeviceType_mobile {s : State} (h : s.innerWidth < 769) : getDeviceType s = "mobile" := by
  have h1 : ¬ s.innerWidth ≥ 1025 := by omega
  have h2 : ¬ s.innerWidth ≥ 769 := by omega
  simp [getDeviceType, h1, h2]

theorem getDeviceType_wide {s : State} (h : 769 ≤ s.innerWidth) :
    getDeviceType s = "desktop" ∨ getDeviceType s = "tablet" := by
  by_cases h1 : s.innerWidth ≥ 1025
  · left; simp [getDeviceType, h1]
  · right; simp [getDeviceType, h1, h]

theorem getDeviceType_wide_ne {s : State} (h : 769 ≤ s.innerWidth) :
    getDeviceType s ≠ "mobile" := by
  rcases getDeviceType_wide h with e | e <;> rw [e] <;> decide

theorem closeMobileMenu_idem (s : State) :
    closeMobileMenu (closeMobileMenu s) = closeMobileMenu s := by
  obtain ⟨w, o, tg, nav, ov, bo⟩ := s
  cases tg <;> cases nav <;> cases ov <;>
    simp [closeMobileMenu, List.map_map, Function.comp_def]

/-- C27: below width 769 `toggleMobileMenu` negates `isMenuOpen`, so two
toggles restore it; at width 769 or more `toggleMobileMenu` and
`openMobileMenu` leave the state, `isMenuOpen` included, as it was, and
`updateNavigation` sets `isMenuOpen` to false; `closeMobileMenu` sets it to
false at every width and is idempotent; and `openMobileMenu` makes it true
only below width 769. -/
theorem mobileMenu_width (s : State) :
    (s.innerWidth < 769 →
      (toggleMobileMenu s).isMenuOpen = !s.isMenuOpen ∧
      (toggleMobileMenu (toggleMobileMenu s)).isMenuOpen = s.isMenuOpen) ∧
    (769 ≤ s.innerWidth →
      toggleMobileMenu s = s ∧ openMobileMenu s = s ∧ (updateNavigation s).isMenuOpen = false) ∧
    (closeMobileMenu s).isMenuOpen = false ∧
    closeMobileMenu (closeMobileMenu s) = closeMobileMenu s ∧
    (s.isMenuOpen = false → (openMobileMenu s).isMenuOpen = true → s.innerWidth < 769) := by
  have htoggle : ∀ t : State, t.innerWidth < 769 →
      (toggleMobileMenu t).isMenuOpen = !t.isMenuOpen ∧
      (toggleMobileMenu t).innerWidth = t.innerWidth := by
    intro t ht
    have hm := getDeviceType_mobile ht
    cases ho : t.isMenuOpen <;>
      simp [toggleMobileMenu, openMobileMenu, closeMobileMenu, hm, ho]
  refine ⟨?_, ?_, rfl, closeMobileMenu_idem s, ?_⟩
  · intro h
    obtain ⟨h1, hw⟩ := htoggle s h
    obtain ⟨h2, -⟩ := htoggle (toggleMobileMenu s) (by rw [hw]; exact h)
    refine ⟨h1, ?_⟩
    rw [h2, h1]
    simp
  · intro h
    have hne := getDeviceType_wide_ne h
    refine ⟨by simp [toggleMobileMenu, hne], by simp [openMobileMenu, hne], ?_⟩
    simp [updateNavigation, getDeviceType_wide h]
  · intro hclosed hopen
    by_contra hw
    have hne := getDeviceType_wide_ne (by omega : 769 ≤ s.innerWidth)
    simp [openMobileMenu, hne, hclosed] at hopen

theorem mobileMenu_width_witness :
    ((samplePage 390).innerWidth < 769 ∧
      (toggleMobileMenu (samplePage 390)).isMenuOpen = !(samplePage 390).isMenuOpen ∧
      (toggleMobileMenu (toggleMobileMenu (samplePage 390))).isMenuOpen =
        (samplePage 390).isMenuOpen) ∧
    (769 ≤ (samplePage 1280).innerWidth ∧
      toggleMobileMenu (samplePage 1280) = samplePage 1280 ∧
      openMobileMenu (samplePage 1280) = samplePage 1280 ∧
      (updateNavigation (samplePage 1280)).isMenuOpen = false) :=
  ⟨⟨by decide, (mobileMenu_width (samplePage 390)).1 (by decide)⟩,
    ⟨by decide, (mobileMenu_width (samplePage 1280)).2.1 (by decide)⟩⟩

end NavigationManager

namespace AnimationManager

/-! ## Start-up with reduced motion -/

theorem init_motion (bodyClass : String) (animated interactive parallax : Nat) :
    ∃ s, init (new false bodyClass animated interactive parallax) = JS.Completion.normal s ∧
      s.observers = 1 ∧ s.observed = animated ∧ s.bodyClass = bodyClass ∧
      initializeAnimations false bodyClass animated interactive parallax =
        (JS.PromiseOutcome.fulfilled, s) := by
  refine ⟨_, rfl, ?_, ?_, ?_, rfl⟩
  · simp only [initializeParallaxEffects, initializeLoadingAnimations, initializeHoverEffects,
      initializeScrollAnimations, new]
    split <;> rfl
  · simp only [initializeParallaxEffects, initializeLoadingAnimations, initializeHoverEffects,
      initializeScrollAnimations, new]
    split <;> simp
  · simp only [initializeParallaxEffects, initializeLoadingAnimations, initializeHoverEffects,
      initializeScrollAnimations, new]
    split <;> rfl

/-- C21 (the code with reduced motion preferred): `init()` adds the class
`reduced-motion` to `<body>`, registers no observer and no listener, and then
raises a `ReferenceError` for `resolve`. The promise of
`initializeAnimations()` is rejected, so `start()` goes to its `catch` block:
`isLoaded` stays false and `<body>` does not get the class `loaded`, although
the three other initializers succeeded. -/
theorem init_reducedMotion (animated interactive parallax : Nat) :
    ∃ s, init (new true "" animated interactive parallax) =
        JS.Completion.raised (JS.JSError.referenceError "resolve") s ∧
      s.bodyClass = "reduced-motion" ∧ s.observers = 0 ∧ s.observed = 0 ∧ s.listeners = 0 ∧
      initializeAnimations true "" animated interactive parallax =
        (JS.PromiseOutcome.rejected (JS.JSError.referenceError "resolve"), s) ∧
      PortfolioApp.start JS.PromiseOutcome.fulfilled JS.PromiseOutcome.fulfilled
          (initializeAnimations true "" animated interactive parallax).1
          JS.PromiseOutcome.fulfilled { isLoaded := false, bodyClass := s.bodyClass } =
        { isLoaded := false, bodyClass := "reduced-motion" } :=
  ⟨_, rfl, rfl, rfl, rfl, rfl, rfl, rfl⟩

end AnimationManager

namespace PortfolioApp

/-! ## The current page -/

/-- C22: `getCurrentPage` returns one of `home`, `projects`, `skills`,
`contact`, `intro` for every path, and for the five entry pages of the build
it returns `intro`, `home`, `projects`, `skills` and `contact`, in the order
of `entryPages`. -/
theorem getCurrentPage_total (path : String) :
    getCurrentPage path ∈ ["home", "projects", "skills", "contact", "intro"] ∧
    entryPages.map getCurrentPage = ["intro", "home", "projects", "skills", "contact"] ∧
    getCurrentPage "/index.html" = "intro" ∧
    getCurrentPage "/pages/Home/index.html" = "home" ∧
    getCurrentPage "/pages/Projects/index.html" = "projects" ∧
    getCurrentPage "/pages/About-me/index.html" = "skills" ∧
    getCurrentPage "/pages/contact-me/index.html" = "contact" := by
  refine ⟨?_, by decide, by decide, by decide, by decide, by decide, by decide⟩
  simp only [getCurrentPage]
  split_ifs <;> decide

end PortfolioApp

namespace PortfolioApp

/-! ## Projects -/

theorem createCards_project (index : Nat) (ps : List Project) :
    (createCards index ps).map Card.project = ps ∧
    (createCards index ps).map Card.index = List.range' index ps.length := by
  induction ps generalizing index with
  | nil => exact ⟨rfl, rfl⟩
  | cons p ps ih =>
    obtain ⟨h1, h2⟩ := ih (index + 1)
    exact ⟨by simp [createCards, h1], by simp [createCards, h2, List.range']⟩

theorem renderProjects_content (ps : List Project) :
    (ps = [] → renderProjects ps = GridContent.placeholder) ∧
    (ps ≠ [] → ∃ cs, renderProjects ps = GridContent.cards cs ∧ cs.map Card.project = ps ∧
      cs.map Card.index = List.range' 0 ps.length) := by
  constructor
  · rintro rfl
    rfl
  · intro h
    have hlen : ¬ ps.length = 0 := fun e => h (List.length_eq_zero.mp e)
    exact ⟨createCards 0 ps, by simp [renderProjects, hlen], (createCards_project 0 ps).1,
      (createCards_project 0 ps).2⟩

/-- C23: on a page with the grid, when the store holds a text under
`portfolioProjects` that `JSON.parse` reads as the project list `projects`, or
holds no entry, in which case `projects` is the list of the three built-in
projects, `loadProjects` returns and the grid shows exactly the projects of
`projects` whose status is `published`, one card each, in the order of the
list; when there is none it shows the placeholder instead. The three built-in
projects are all published. -/
theorem loadProjects_published (json : Json Project) (storage : ThemeManager.StringMap)
    (g : GridContent) (projects : List Project)
    (h : (∃ text, ThemeManager.getItem "portfolioProjects" storage = some text ∧
        json.parse text = Parsed.array projects) ∨
      (ThemeManager.getItem "portfolioProjects" storage = none ∧ projects = defaultProjects)) :
    ∃ content, loadProjects json storage (some g) = JS.Completion.normal (some content) ∧
      (published projects = [] → content = GridContent.placeholder) ∧
      (published projects ≠ [] → ∃ cs, content = GridContent.cards cs ∧
        cs.map Card.project = published projects ∧
        cs.map Card.index = List.range' 0 (published projects).length) ∧
      (∀ p, p ∈ published projects ↔ p ∈ projects ∧ p.status = "published") ∧
      (published projects).Sublist projects ∧
      published defaultProjects = defaultProjects := by
  have hload : loadProjects json storage (some g) =
      JS.Completion.normal (some (renderProjects (published projects))) := by
    rcases h with ⟨text, h, hparse⟩ | ⟨h, rfl⟩
    · simp only [loadProjects, h, parseStored, hparse]
    · simp only [loadProjects, h, parseStored]
  refine ⟨_, hload, (renderProjects_content _).1, (renderProjects_content _).2, ?_,
    List.filter_sublist _, by decide⟩
  intro p
  simp [published, List.mem_filter]

theorem loadProjects_published_witness :
    ((∃ text, ThemeManager.getItem "portfolioProjects"
          (storageWith "portfolioProjects" "stored") = some text ∧
        (fixedJson sampleProjects).parse text = Parsed.array sampleProjects) ∨
      (ThemeManager.getItem "portfolioProjects" (storageWith "portfolioProjects" "stored") = none ∧
        sampleProjects = defaultProjects)) ∧
    (∃ content, loadProjects (fixedJson sampleProjects) (storageWith "portfolioProjects" "stored")
        (some GridContent.served) = JS.Completion.normal (some content) ∧
      (published sampleProjects = [] → content = GridContent.placeholder) ∧
      (published sampleProjects ≠ [] → ∃ cs, content = GridContent.cards cs ∧
        cs.map Card.project = published sampleProjects ∧
        cs.map Card.index = List.range' 0 (published sampleProjects).length) ∧
      (∀ p, p ∈ published sampleProjects ↔ p ∈ sampleProjects ∧ p.status = "published") ∧
      (published sampleProjects).Sublist sampleProjects ∧
      published defaultProjects = defaultProjects) ∧
    published sampleProjects =
      [sampleProject "First" "published", sampleProject "Third" "published"] ∧
    loadProjects (fixedJson sampleProjects) (storageWith "portfolioProjects" "stored")
        (some GridContent.served) =
      JS.Completion.normal (some (GridContent.cards
        [{ project := sampleProject "First" "published", index := 0 },
          { project := sampleProject "Third" "published", index := 1 }])) ∧
    (∃ content, loadProjects (fixedJson draftProjects) (storageWith "portfolioProjects" "stored")
        (some GridContent.served) = JS.Completion.normal (some content) ∧
      (published draftProjects = [] → content = GridContent.placeholder) ∧
      (published draftProjects ≠ [] → ∃ cs, content = GridContent.cards cs ∧
        cs.map Card.project = published draftProjects ∧
        cs.map Card.index = List.range' 0 (published draftProjects).length) ∧
      (∀ p, p ∈ published draftProjects ↔ p ∈ draftProjects ∧ p.status = "published") ∧
      (published draftProjects).Sublist draftProjects ∧
      published defaultProjects = defaultProjects) ∧
    published draftProjects = [] ∧
    loadProjects (fixedJson draftProjects) (storageWith "portfolioProjects" "stored")
        (some GridContent.served) =
      JS.Completion.normal (some GridContent.placeholder) ∧
    loadProjects (fixedJson draftProjects) emptyStorage (some GridContent.served) =
      JS.Completion.normal (some (GridContent.cards (createCards 0 defaultProjects))) :=
  ⟨Or.inl ⟨"stored", rfl, rfl⟩,
    loadProjects_published (fixedJson sampleProjects) (storageWith "portfolioProjects" "stored")
      GridContent.served sampleProjects (Or.inl ⟨"stored", rfl, rfl⟩),
    by decide, rfl,
    loadProjects_published (fixedJson draftProjects) (storageWith "portfolioProjects" "stored")
      GridContent.served draftProjects (Or.inl ⟨"stored", rfl, rfl⟩),
    by decide, rfl, rfl⟩

/-! ## Contact submissions -/

/-- C24: when the stored contact list is `L` (the empty list when nothing is
stored), a submission with record `c` succeeds and the list stored under
`portfolio_contacts` afterwards is the first 50 elements of `c` followed by
`L`: `c` is at index 0, then come the first 49 elements of `L` in their order,
and the length is the smaller of `len(L) + 1` and 50. -/
theorem submitContact_stored (json : Json Contact) (events : Json EventRecord) (c : Contact)
    (eventTime path : String) (storage : ThemeManager.StringMap) (L : List Contact)
    (h : parseStored json (ThemeManager.getItem "portfolio_contacts" storage) = Parsed.array L ∨
      (ThemeManager.getItem "portfolio_contacts" storage = none ∧ L = [])) :
    ∃ st, submitContact json events c eventTime path storage = JS.Completion.normal st ∧
      ThemeManager.getItem "portfolio_contacts" st = some (json.stringify ((c :: L).take 50)) ∧
      (c :: L).take 50 = c :: L.take 49 ∧
      ((c :: L).take 50)[0]? = some c ∧
      (L.take 49).IsPrefix L ∧
      ((c :: L).take 50).length = min (L.length + 1) 50 := by
  have hkey : ∀ (v : String) (m : ThemeManager.StringMap) (r : EventRecord),
      ThemeManager.getItem "portfolio_contacts"
        (trackEvent events r (ThemeManager.setItem "portfolio_contacts" v m)) = some v := by
    intro v m r
    simp only [trackEvent]
    split <;> simp [ThemeManager.getItem, ThemeManager.setItem]
  have hrun : submitContact json events c eventTime path storage =
      JS.Completion.normal
        (trackEvent events
          { name := "contact_form_submit", data := [("subject", c.subject)],
            timestamp := eventTime, page := getCurrentPage path }
          (ThemeManager.setItem "portfolio_contacts" (json.stringify ((c :: L).take 50))
            storage)) := by
    rcases h with h | ⟨h, rfl⟩
    · simp only [submitContact, h]
    · simp only [submitContact, h, parseStored]
  refine ⟨_, hrun, hkey _ _ _, rfl, by simp, List.take_prefix 49 L, ?_⟩
  simp only [List.length_take, List.length_cons]
  omega

theorem submitContact_stored_witness :
    parseStored (fixedJson (List.replicate 60 sampleContact))
        (ThemeManager.getItem "portfolio_contacts" (storageWith "portfolio_contacts" "stored")) =
      Parsed.array (List.replicate 60 sampleContact) ∧
    ∃ st, submitContact (fixedJson (List.replicate 60 sampleContact)) (emptyJson EventRecord)
        sampleContact "2024-01-01T00:00:00.001Z" "/pages/contact-me/index.html"
        (storageWith "portfolio_contacts" "stored") = JS.Completion.normal st ∧
      ThemeManager.getItem "portfolio_contacts" st =
        some ((fixedJson (List.replicate 60 sampleContact)).stringify
          ((sampleContact :: List.replicate 60 sampleContact).take 50)) ∧
      (sampleContact :: List.replicate 60 sampleContact).take 50 =
        sampleContact :: (List.replicate 60 sampleContact).take 49 ∧
      ((sampleContact :: List.replicate 60 sampleContact).take 50)[0]? = some sampleContact ∧
      ((List.replicate 60 sampleContact).take 49).IsPrefix (List.replicate 60 sampleContact) ∧
      ((sampleContact :: List.replicate 60 sampleContact).take 50).length =
        min ((List.replicate 60 sampleContact).length + 1) 50 :=
  ⟨rfl,
    submitContact_stored (fixedJson (List.replicate 60 sampleContact)) (emptyJson EventRecord)
      sampleContact "2024-01-01T00:00:00.001Z" "/pages/contact-me/index.html"
      (storageWith "portfolio_contacts" "stored") (List.replicate 60 sampleContact)
      (Or.inl rfl)⟩

end PortfolioApp

namespace PortfolioApp

/-! ## Visits -/

theorem sliceLast_length {α : Type} (n : Nat) (l : List α) :
    (sliceLast n l).length = min l.length n := by
  simp only [sliceLast, List.length_drop]
  omega

theorem orElse_of_nonempty {v : String} (h : v ≠ "") (fallback : String) :
    orElse (some v) fallback = v := by
  have hne : v.toList.isEmpty = false := by
    cases hd : v.toList with
    | nil => exact absurd (String.ext hd) h
    | cons c cs => rfl
  simp only [orElse, hne, Bool.false_eq_true, if_false]

/-- C25 (counterexample): with the empty string stored under `visitorId`,
`trackVisitor` makes up a new id from the clock: the record carries
`visitor_1704067200000`, and the stored id changes to it. -/
theorem trackVisitor_empty_id :
    ThemeManager.getItem "visitorId" (storageWith "visitorId" "") = some "" ∧
    (visitData sampleEnv "home" (storageWith "visitorId" "")).id = "visitor_1704067200000" ∧
    ThemeManager.getItem "visitorId"
        (trackVisitor (emptyJson Visit) sampleEnv "home" (storageWith "visitorId" "")) =
      some "visitor_1704067200000" := by
  refine ⟨rfl, ?_, ?_⟩
  · decide
  · decide

/-- C25 (amended): when the stored visit list is `V` (the empty list when
nothing is stored), the list stored under `visitors` afterwards is the last 100
elements of `V` followed by the new record: its length is the smaller of
`len(V) + 1` and 100, the order is kept and the new record is last. When a
non-empty `visitorId` is stored, the new record carries that id and the stored
id is unchanged. -/
theorem trackVisitor_stored (json : Json Visit) (env : Env) (page : String)
    (storage : ThemeManager.StringMap) (V : List Visit)
    (h : json.parse (orElse (ThemeManager.getItem "visitors" storage) "[]") = Parsed.array V) :
    ThemeManager.getItem "visitors" (trackVisitor json env page storage) =
      some (json.stringify (sliceLast 100 (V ++ [visitData env page storage]))) ∧
    (sliceLast 100 (V ++ [visitData env page storage])).length = min (V.length + 1) 100 ∧
    (sliceLast 100 (V ++ [visitData env page storage])).IsSuffix
      (V ++ [visitData env page storage]) ∧
    (sliceLast 100 (V ++ [visitData env page storage])).getLast? =
      some (visitData env page storage) ∧
    (visitData env page storage).page = page ∧
    (∀ v, ThemeManager.getItem "visitorId" storage = some v → v ≠ "" →
      (visitData env page storage).id = v ∧
      ThemeManager.getItem "visitorId" (trackVisitor json env page storage) = some v) := by
  have hrun : trackVisitor json env page storage =
      ThemeManager.setItem "visitorId" (visitorIdFor env storage)
        (ThemeManager.setItem "visitors"
          (json.stringify (sliceLast 100 (V ++ [visitData env page storage]))) storage) := by
    simp only [trackVisitor, h]
  have hlen := sliceLast_length 100 (V ++ [visitData env page storage])
  refine ⟨?_, ?_, List.drop_suffix _ _, ?_, rfl, ?_⟩
  · rw [hrun]
    simp [ThemeManager.getItem, ThemeManager.setItem]
  · rw [hlen]
    simp
  · have hlt : (V ++ [visitData env page storage]).length - 100 <
        (V ++ [visitData env page storage]).length := by
      simp only [List.length_append, List.length_singleton]
      omega
    simp only [sliceLast]
    rw [List.getLast?_drop, if_neg (by omega)]
    simp
  · intro v hv hne
    have hid : visitorIdFor env storage = v := by
      simp only [visitorIdFor, hv]
      exact orElse_of_nonempty hne _
    refine ⟨hid, ?_⟩
    rw [hrun, hid]
    simp [ThemeManager.getItem, ThemeManager.setItem]

end PortfolioApp

namespace PortfolioApp

theorem trackVisitor_stored_witness :
    (fixedJson (List.replicate 120 sampleVisit)).parse
        (orElse (ThemeManager.getItem "visitors" sampleStorage) "[]") =
      Parsed.array (List.replicate 120 sampleVisit) ∧
    (sliceLast 100 (List.replicate 120 sampleVisit ++
        [visitData sampleEnv "projects" sampleStorage])).length =
      min ((List.replicate 120 sampleVisit).length + 1) 100 ∧
    ThemeManager.getItem "visitorId" sampleStorage = some "visitor_42" ∧
    "visitor_42" ≠ "" ∧
    (visitData sampleEnv "projects" sampleStorage).id = "visitor_42" ∧
    ThemeManager.getItem "visitorId"
        (trackVisitor (fixedJson (List.replicate 120 sampleVisit)) sampleEnv "projects"
          sampleStorage) = some "visitor_42" :=
  ⟨rfl,
    (trackVisitor_stored (fixedJson (List.replicate 120 sampleVisit)) sampleEnv "projects"
      sampleStorage (List.replicate 120 sampleVisit) rfl).2.1,
    rfl, by decide,
    (trackVisitor_stored (fixedJson (List.replicate 120 sampleVisit)) sampleEnv "projects"
      sampleStorage (List.replicate 120 sampleVisit) rfl).2.2.2.2.2 "visitor_42" rfl (by decide)⟩

/-! ## Page views -/

/-- C26 (counterexample): a stored total of `9007199254740992`, which is
`2^53`, is the same after `trackPageView("home")`, not one more; and
`trackPageView("page")` on an empty store uses the key of the total for the
page as well and leaves 2 under it. -/
theorem trackPageView_not_plus_one :
    (9007199254740992 : Nat) = 2 ^ 53 ∧
    DecimalEntry (ThemeManager.getItem "portfolio_page_views"
      (storageWith "portfolio_page_views" "9007199254740992")) 9007199254740992 ∧
    (∃ st, trackPageView (noJson Visit) sampleEnv "home"
        (storageWith "portfolio_page_views" "9007199254740992") = some st ∧
      ThemeManager.getItem "portfolio_page_views" st = some "9007199254740992") ∧
    pageKey "page" = "portfolio_page_views" ∧
    (∃ st, trackPageView (noJson Visit) sampleEnv "page" emptyStorage = some st ∧
      ThemeManager.getItem "portfolio_page_views" st = some "2") := by
  refine ⟨by norm_num, Or.inr ⟨"9007199254740992", rfl, by decide, by decide, by decide⟩,
    ⟨_, rfl, by decide⟩, by decide, ⟨_, rfl, by decide⟩⟩

end PortfolioApp

namespace PortfolioApp

theorem radixDigits_decimal (l : List Char) (h : ∀ c ∈ l, 48 ≤ c.toNat ∧ c.toNat ≤ 57) :
    radixDigits 10 l = l.map (fun c => c.toNat - 48) := by
  induction l with
  | nil => rfl
  | cons c cs ih =>
    have hc := h c (List.mem_cons_self c cs)
    have hlt : c.toNat - 48 < 10 := by omega
    simp only [radixDigits, digitValue, hc, and_self, if_true, hlt, List.map_cons]
    rw [ih (fun d hd => h d (List.mem_cons_of_mem c hd))]

theorem isStrWhiteSpace_digit {c : Char} (h : 48 ≤ c.toNat ∧ c.toNat ≤ 57) :
    isStrWhiteSpace c = false := by
  simp only [isStrWhiteSpace, Bool.or_eq_false_iff, decide_eq_false_iff_not, Bool.and_eq_false_iff,
    List.mem_cons, List.mem_singleton, List.not_mem_nil, or_false]
  omega

theorem parseInt_decimal (text : String) (hne : text.toList ≠ [])
    (h : ∀ c ∈ text.toList, 48 ≤ c.toNat ∧ c.toNat ≤ 57) :
    parseInt text =
      if digitsValue 10 (text.toList.map (fun c => c.toNat - 48)) > 2 ^ 53 then ParsedInt.beyond
      else ParsedInt.int (digitsValue 10 (text.toList.map (fun c => c.toNat - 48))) := by
  cases hl : text.toList with
  | nil => exact absurd hl hne
  | cons c cs =>
    rw [hl] at h
    have hc := h c (List.mem_cons_self c cs)
    have hdrop : (c :: cs).dropWhile isStrWhiteSpace = c :: cs := by
      simp [List.dropWhile, isStrWhiteSpace_digit hc]
    have hminus : c ≠ '-' := by
      rintro rfl
      exact absurd hc (by decide)
    have hplus : c ≠ '+' := by
      rintro rfl
      exact absurd hc (by decide)
    have hhex : ("0x".toList.isPrefixOf (c :: cs) || "0X".toList.isPrefixOf (c :: cs)) = false := by
      cases cs with
      | nil => simp [List.isPrefixOf]
      | cons d ds =>
        have hd := h d (List.mem_cons_of_mem c (List.mem_cons_self d ds))
        have hx : d ≠ 'x' := by
          rintro rfl
          exact absurd hd (by decide)
        have hX : d ≠ 'X' := by
          rintro rfl
          exact absurd hd (by decide)
        simp [List.isPrefixOf, Ne.symm hx, Ne.symm hX]
    have hdig := radixDigits_decimal (c :: cs) h
    simp only [parseInt, hl, hdrop, List.head?_cons, Option.some.injEq, hminus, hplus, or_self,
      if_false, decide_False, hhex, Bool.false_eq_true, hdig]
    simp

theorem storedCounter_decimal {entry : Option String} {n : Nat} (h : DecimalEntry entry n)
    (hn : n ≤ 2 ^ 53) : storedCounter entry = some (n : Int) := by
  rcases h with ⟨rfl, rfl⟩ | ⟨text, rfl, hne, hdig, hval⟩
  · rfl
  · have hle : ¬ n > 2 ^ 53 := by omega
    simp only [storedCounter, parseInt_decimal text hne hdig, hval, hle, if_false]

theorem toString_ofNat (n : Nat) : toString ((n : Nat) : Int) = toString n := by
  show toString (Int.ofNat n) = toString n
  rfl

theorem increment_ofNat {n : Nat} (hn : n < 2 ^ 53) :
    increment (n : Int) = ((n + 1 : Nat) : Int) := by
  have hlt : (n : Int) < 2 ^ 53 := by exact_mod_cast hn
  simp only [increment, hlt, if_true]
  push_cast
  rfl

theorem toString_increment {n : Nat} (hn : n < 2 ^ 53) :
    toString (increment (n : Int)) = toString (n + 1) := by
  rw [increment_ofNat hn, toString_ofNat]

end PortfolioApp

namespace PortfolioApp

theorem pageKey_toList (page : String) :
    (pageKey page).toList = "portfolio_".toList ++ page.toList ++ "_views".toList := by
  simp [pageKey, String.toList]

theorem pageKey_injective {a b : String} (h : pageKey a = pageKey b) : a = b := by
  have hl := congrArg String.toList h
  rw [pageKey_toList, pageKey_toList] at hl
  have h1 := List.append_cancel_right hl
  exact String.ext (List.append_cancel_left h1)

theorem pageKey_page : pageKey "page" = "portfolio_page_views" := by decide

theorem pageKey_ne_visitor (page : String) :
    pageKey page ≠ "visitors" ∧ pageKey page ≠ "visitorId" := by
  constructor <;>
  · intro h
    have hl := congrArg String.toList h
    rw [pageKey_toList] at hl
    simp [String.toList] at hl

theorem trackVisitor_frame (json : Json Visit) (env : Env) (page : String)
    (storage : ThemeManager.StringMap) {k : String} (h1 : k ≠ "visitors") (h2 : k ≠ "visitorId") :
    ThemeManager.getItem k (trackVisitor json env page storage) = ThemeManager.getItem k storage := by
  simp only [trackVisitor]
  split <;> simp [ThemeManager.getItem, ThemeManager.setItem, h1, h2]

/-- C26 (amended): for a page other than `page`, when the stored total
`portfolio_page_views` and the stored counter `portfolio_<page>_views` are
decimal strings of integers `t` and `p` below `2^53` (an absent entry counting
as 0), `trackPageView(page)` leaves the decimal strings of `t + 1` and `p + 1`
under the two keys, and the counter of every other page, other than `page`, is
as it was. -/
theorem trackPageView_counters (json : Json Visit) (env : Env) (page : String)
    (storage : ThemeManager.StringMap) (t p : Nat) (hpage : page ≠ "page")
    (ht : DecimalEntry (ThemeManager.getItem "portfolio_page_views" storage) t)
    (hp : DecimalEntry (ThemeManager.getItem (pageKey page) storage) p)
    (htb : t < 2 ^ 53) (hpb : p < 2 ^ 53) :
    ∃ st, trackPageView json env page storage = some st ∧
      ThemeManager.getItem "portfolio_page_views" st = some (toString (t + 1)) ∧
      ThemeManager.getItem (pageKey page) st = some (toString (p + 1)) ∧
      ∀ q, q ≠ page → q ≠ "page" →
        ThemeManager.getItem (pageKey q) st = ThemeManager.getItem (pageKey q) storage := by
  have hkey : pageKey page ≠ "portfolio_page_views" := by
    intro h
    rw [← pageKey_page] at h
    exact hpage (pageKey_injective h)
  have hst1 : ThemeManager.getItem (pageKey page)
      (ThemeManager.setItem "portfolio_page_views" (toString (increment (t : Int))) storage) =
      ThemeManager.getItem (pageKey page) storage := by
    simp [ThemeManager.getItem, ThemeManager.setItem, hkey]
  have hrun : trackPageView json env page storage =
      some (trackVisitor json env page
        (ThemeManager.setItem (pageKey page) (toString (increment (p : Int)))
          (ThemeManager.setItem "portfolio_page_views" (toString (increment (t : Int)))
            storage))) := by
    simp only [trackPageView, storedCounter_decimal ht (le_of_lt htb), hst1,
      storedCounter_decimal hp (le_of_lt hpb)]
  obtain ⟨hv1, hv2⟩ := pageKey_ne_visitor page
  refine ⟨_, hrun, ?_, ?_, ?_⟩
  · rw [trackVisitor_frame json env page _ (by decide) (by decide)]
    simp [ThemeManager.getItem, ThemeManager.setItem, Ne.symm hkey, toString_increment htb]
  · rw [trackVisitor_frame json env page _ hv1 hv2]
    simp [ThemeManager.getItem, ThemeManager.setItem, toString_increment hpb]
  · intro q hq hqp
    have hq1 : pageKey q ≠ pageKey page := fun h => hq (pageKey_injective h)
    have hq2 : pageKey q ≠ "portfolio_page_views" := by
      intro h
      rw [← pageKey_page] at h
      exact hqp (pageKey_injective h)
    rw [trackVisitor_frame json env page _ (pageKey_ne_visitor q).1 (pageKey_ne_visitor q).2]
    simp [ThemeManager.getItem, ThemeManager.setItem, hq1, hq2]

theorem trackPageView_counters_witness :
    "home" ≠ "page" ∧
    DecimalEntry (ThemeManager.getItem "portfolio_page_views"
      (storageWith "portfolio_page_views" "0041")) 41 ∧
    DecimalEntry (ThemeManager.getItem (pageKey "home")
      (storageWith "portfolio_page_views" "0041")) 0 ∧
    ∃ st, trackPageView (emptyJson Visit) sampleEnv "home"
        (storageWith "portfolio_page_views" "0041") = some st ∧
      ThemeManager.getItem "portfolio_page_views" st = some (toString (41 + 1)) ∧
      ThemeManager.getItem (pageKey "home") st = some (toString (0 + 1)) ∧
      ∀ q, q ≠ "home" → q ≠ "page" →
        ThemeManager.getItem (pageKey q) st =
          ThemeManager.getItem (pageKey q) (storageWith "portfolio_page_views" "0041") :=
  ⟨by decide, Or.inr ⟨"0041", rfl, by decide, by decide, by decide⟩, Or.inl ⟨by decide, rfl⟩,
    trackPageView_counters (emptyJson Visit) sampleEnv "home"
      (storageWith "portfolio_page_views" "0041") 41 0 (by decide)
      (Or.inr ⟨"0041", rfl, by decide, by decide, by decide⟩) (Or.inl ⟨by decide, rfl⟩)
      (by norm_num) (by norm_num)⟩

end PortfolioApp
